import Mathlib

/-!
# ubiquity-k8s flex-volume controller

A shallow embedding of `controller/controller.go`.

* The Go `Controller` value and the world it acts on are an explicit `State`:
  the backend registry `mounterPerBackend` (a Go map, possibly nil), the
  node-wide unmount lock, and the chronological list of calls made to the
  collaborators (remote control-plane client, backend mounters, executor,
  `os`, `/bin/ln`, lock file).
* The collaborators are oracles of an `Env`: each answer may depend on the
  whole history of calls made so far.
* A Go `(T, error)` result is a pair of a value and an `Option GoError`
  (`none` is the nil error); a run-time panic is an `Outcome.panic`.
* Logging (`Debug`, `Trace`, `Error`) has no effect on the results and is left
  out; `ErrorRet` is kept because its result is returned.
-/

set_option autoImplicit false

namespace Ubiquity

/-! ## Data model -/

/-- A Go `error` value: `text` is `err.Error()`, `goSyntax` is its `%#v`
rendering, `isExist` and `isNotExist` are `os.IsExist(err)` and
`os.IsNotExist(err)`. -/
structure GoError where
  text : String
  goSyntax : String
  isExist : Bool
  isNotExist : Bool
deriving DecidableEq, Repr

/-- A value stored in a volume config (`interface{}`): either a Go string or a
value of any other dynamic type (nil included), identified by a tag. -/
inductive Value where
  | str (s : String)
  | other (tag : Nat)
deriving DecidableEq, Repr

/-- The Go type `map[string]interface{}` returned by `GetVolumeConfig`; a key is
looked up with `List.lookup`. -/
abbrev VolumeConfig := List (String × Value)

/-- The fields of `resources.Volume` the controller reads. -/
structure Volume where
  Name : String
  Backend : String
  Mountpoint : String
deriving DecidableEq, Repr

/-- The zero value `resources.Volume{}`. -/
def Volume.zero : Volume := { Name := "", Backend := "", Mountpoint := "" }

/-- The response envelope `k8sresources.FlexVolumeResponse`; fields that a
composite literal leaves out hold their zero value. -/
structure FlexVolumeResponse where
  Status : String
  Message : String := ""
  Device : String := ""
  Attached : Bool := false
deriving DecidableEq, Repr

structure FlexVolumeAttachRequest where
  Name : String
  Host : String
  Opts : List (String × String) := []
  Version : String := ""
deriving DecidableEq, Repr

structure FlexVolumeDetachRequest where
  Name : String
  Host : String := ""
  Version : String := ""
deriving DecidableEq, Repr

structure FlexVolumeIsAttachedRequest where
  Name : String
  Host : String
  Opts : List (String × String)
deriving DecidableEq, Repr

structure FlexVolumeMountRequest where
  MountPath : String
  MountDevice : String
  Opts : List (String × String)
  Version : String
deriving DecidableEq, Repr

structure FlexVolumeUnmountRequest where
  MountPath : String
deriving DecidableEq, Repr

/-- Which constructor of package `mounter` built a backend executor. -/
inductive MounterKind where
  | spectrumScale
  | nfs
  | scbe
deriving DecidableEq, Repr

/-- A backend executor instance (`resources.Mounter`): `id` is the number of
executors the controller had built before this one, so two constructions never
give the same instance. -/
structure Mounter where
  kind : MounterKind
  id : Nat
deriving DecidableEq, Repr

/-- One call made by the controller to a collaborator. -/
inductive Call where
  | clientActivate (backends : List String)
  | clientAttach (name host : String)
  | clientDetach (name host : String)
  | clientGetVolume (name : String)
  | clientGetVolumeConfig (name : String)
  | clientListVolumes
  | mounterMount (m : Mounter) (mountpoint : String) (volumeConfig : VolumeConfig)
  | mounterUnmount (m : Mounter) (volumeConfig : VolumeConfig)
  | mounterActionAfterDetach (m : Mounter) (volumeConfig : VolumeConfig)
  | execEvalSymlinks (path : String)
  | execRemove (path : String)
  | osStat (path : String)
  | osMkdirAll (path : String)
  | osRemove (path : String)
  | osHostname
  | ln (target linkPath : String)
  | tryLock
  | sleep
  | unlock
deriving DecidableEq, Repr

/-- A call to the remote control-plane client. -/
def Call.isClient : Call → Bool
  | .clientActivate _ => true
  | .clientAttach _ _ => true
  | .clientDetach _ _ => true
  | .clientGetVolume _ => true
  | .clientGetVolumeConfig _ => true
  | .clientListVolumes => true
  | _ => false

/-- A call to a backend executor. -/
def Call.isMounter : Call → Bool
  | .mounterMount _ _ _ => true
  | .mounterUnmount _ _ => true
  | .mounterActionAfterDetach _ _ => true
  | _ => false

/-- The result of running Go code that may panic. -/
inductive Outcome (α : Type) where
  | ret (a : α)
  | panic (msg : String)
deriving DecidableEq, Repr

/-- The constants of the packages `resources` and `k8sresources` the controller
uses. Their declarations are outside the controller, so they are a parameter.
`PathToMountUbiquityBlockDevices w` is
`fmt.Sprintf(resources.PathToMountUbiquityBlockDevices, w)`. -/
structure Resources where
  SpectrumScale : String
  SoftlayerNFS : String
  SpectrumScaleNFS : String
  SCBE : String
  ScbeKeyVolAttachToHost : String
  PathToMountUbiquityBlockDevices : String → String
  KubernetesVersion_1_5 : String

/-- The collaborators of the controller. Every oracle gets the calls made so
far, so an answer may change from one call to the next. An `Option GoError`
result is a Go `error` (`none` is nil). -/
structure Env where
  /-- The call `Client.Activate` -/
  clientActivate : List Call → List String → Option GoError
  /-- The call `Client.Attach`; only its error is read -/
  clientAttach : List Call → String → String → Option GoError
  /-- The call `Client.Detach` with the request's name and host -/
  clientDetach : List Call → String → String → Option GoError
  /-- The call `Client.GetVolume`: both results, since the controller reads the volume
  without looking at the error -/
  clientGetVolume : List Call → String → Volume × Option GoError
  /-- The call `Client.GetVolumeConfig` -/
  clientGetVolumeConfig : List Call → String → Except GoError VolumeConfig
  /-- The call `Client.ListVolumes` -/
  clientListVolumes : List Call → Except GoError (List Volume)
  /-- The call `Mounter.Mount` with the request's mountpoint and volume config -/
  mounterMount : List Call → Mounter → String → VolumeConfig → Except GoError String
  /-- The call `Mounter.Unmount` -/
  mounterUnmount : List Call → Mounter → VolumeConfig → Option GoError
  /-- The call `Mounter.ActionAfterDetach` -/
  mounterActionAfterDetach : List Call → Mounter → VolumeConfig → Option GoError
  /-- The call `exec.EvalSymlinks` -/
  execEvalSymlinks : List Call → String → Except GoError String
  /-- The call `exec.Remove` -/
  execRemove : List Call → String → Option GoError
  /-- The call `os.Stat`; only its error is read -/
  osStat : List Call → String → Option GoError
  /-- The call `os.MkdirAll(dir, 0777)` -/
  osMkdirAll : List Call → String → Option GoError
  /-- The call `os.Remove` -/
  osRemove : List Call → String → Option GoError
  /-- The call `os.Hostname` -/
  osHostname : List Call → Except GoError String
  /-- Running `/bin/ln -s target linkPath`: `some stderr` when `cmd.Run` fails,
  with the captured standard error -/
  lnRun : List Call → String → String → Option String
  /-- The call `unmountFlock.TryLock` -/
  tryLock : List Call → Option GoError
  /-- The `%#v` rendering of a Go string -/
  goSyntaxString : String → String
  /-- The `%#v` rendering of a `[]resources.Volume` -/
  goSyntaxVolumes : List Volume → String

/-- The controller and the world it has acted on. `mounterPerBackend` is the Go
map of the backend registry, `none` being the nil map and the newest entry
first; `mountersBuilt` counts the executors constructed; `calls` are the
collaborator calls in the order they were made. -/
structure State where
  mounterPerBackend : Option (List (String × Mounter))
  mountersBuilt : Nat := 0
  unmountFlockHeld : Bool := false
  calls : List Call := []
deriving DecidableEq, Repr

/-- Records a call at the end of the history. -/
def State.log (s : State) (c : Call) : State :=
  { s with calls := s.calls ++ [c] }

/-! ## Go library functions used by the controller -/

/-- The method `ErrorRet` of the logger in `github.com/IBM/ubiquity/utils/logs`:
it writes an error line to the log and returns the error it was given. -/
def ErrorRet (err : Option GoError) : Option GoError := err

/-- The error built by `fmt.Errorf` from the already formatted text: an
`*errors.errorString`, which is neither an exists nor a not-exists error. -/
def Errorf (env : Env) (text : String) : GoError :=
  { text := text
    goSyntax := "&errors.errorString\x7bs:" ++ env.goSyntaxString text ++ "\x7d"
    isExist := false
    isNotExist := false }

/-- The function `strings.HasPrefix s pre`. -/
def HasPrefix (s pre : String) : Bool :=
  pre.data.isPrefixOf s.data

/-- The function `path.Split`: the path up to and including its last slash, and
what follows it. -/
def pathSplit (path : String) : String × String :=
  let r := path.data.reverse
  (String.mk (r.dropWhile (fun c => c != '/')).reverse,
   String.mk (r.takeWhile (fun c => c != '/')).reverse)

/-- The function `path.Base`: the last element of the path, trailing slashes
removed; "." for the empty path and "/" for a path of slashes only. -/
def pathBase (path : String) : String :=
  if path = "" then "."
  else
    let stripped := path.data.reverse.dropWhile (fun c => c == '/')
    let last := (stripped.takeWhile (fun c => c != '/')).reverse
    if last = [] then "/" else String.mk last

/-- The elements of a path between its slashes (`strings.Split(path, "/")`). -/
def splitSlash : List Char → List (List Char)
  | [] => [[]]
  | c :: cs =>
    match splitSlash cs with
    | [] => [[]]
    | h :: t => if c = '/' then [] :: h :: t else (c :: h) :: t

/-- One element of `path.Clean`, `out` holding the kept elements, last first:
empty and "." elements are dropped, ".." removes the element before it, is
dropped at the root and is kept at the start of a relative path. -/
def cleanStep (rooted : Bool) (out : List (List Char)) (elem : List Char) : List (List Char) :=
  if elem = [] ∨ elem = ['.'] then out
  else if elem = ['.', '.'] then
    match out with
    | [] => if rooted then [] else [elem]
    | top :: rest => if top = ['.', '.'] then elem :: out else rest
  else elem :: out

/-- The function `path.Clean` (and `filepath.Clean` on Unix), on the path's
elements. -/
def pathClean (path : String) : String :=
  if path = "" then "."
  else
    let rooted : Bool := path.data.head? = some '/'
    let out := ((splitSlash path.data).foldl (cleanStep rooted) []).reverse
    let body := String.mk (List.intercalate ['/'] out)
    if rooted then "/" ++ body
    else if body = "" then "." else body

/-- The function `filepath.Dir` on Unix: all but the last element, cleaned. -/
def filepathDir (path : String) : String :=
  pathClean (pathSplit path).1

/-- The function `path.Join`: the non-empty elements joined by slashes and
cleaned; the empty string when there is none. -/
def pathJoin (elems : List String) : String :=
  match elems.filter (fun e => e != "") with
  | [] => ""
  | es => pathClean (String.intercalate "/" es)

/-! ## Constructors -/

/-- The constructor `NewController`: panics when the lock file cannot be set up
(`lockfileNew` is the error of `lockfile.New`), returns the error of
`remote.NewRemoteClientSecure` when there is one, and otherwise a controller
whose backend registry is an empty map. -/
def NewController (lockfileNew remoteClient : Option GoError) :
    Outcome (Option State × Option GoError) :=
  match lockfileNew with
  | some err => .panic err.text
  | none =>
    match remoteClient with
    | some err => .ret (none, some err)
    | none => .ret (some { mounterPerBackend := some [] }, none)

/-- The constructor `NewControllerWithClient`: panics when the lock file cannot
be set up; the composite literal does not set `mounterPerBackend`, which is
left the nil map. -/
def NewControllerWithClient (lockfileNew : Option GoError) : Outcome State :=
  match lockfileNew with
  | some err => .panic err.text
  | none => .ret { mounterPerBackend := none }

/-! ## Backend registry -/

/-- The statement `c.mounterPerBackend[backend] = mounter.NewXxx(...)`: the
executor is constructed first, then stored; storing into a nil map panics. -/
def storeMounter (s : State) (backend : String) (kind : MounterKind) : Outcome Unit × State :=
  let inst : Mounter := { kind := kind, id := s.mountersBuilt }
  let s1 := { s with mountersBuilt := s.mountersBuilt + 1 }
  match s1.mounterPerBackend with
  | none => (.panic "assignment to entry in nil map", s1)
  | some m => (.ret (), { s1 with mounterPerBackend := some ((backend, inst) :: m) })

/-- The expression `c.mounterPerBackend[backend]` read with the comma-ok form;
reading a nil map finds nothing. -/
def lookupMounter (s : State) (backend : String) : Option Mounter :=
  (s.mounterPerBackend.getD []).lookup backend

/-- A branch of `Controller.getMounterForBackend` that builds an executor:
the assignment to the map, then the final `return c.mounterPerBackend[backend],
nil`. -/
def buildAndCache (s : State) (backend : String) (kind : MounterKind) :
    Outcome (Option Mounter × Option GoError) × State :=
  match storeMounter s backend kind with
  | (.panic p, s1) => (.panic p, s1)
  | (.ret (), s1) => (.ret (lookupMounter s1 backend, none), s1)

/-- The method `Controller.getMounterForBackend`. -/
def getMounterForBackend (env : Env) (r : Resources) (s : State) (backend : String) :
    Outcome (Option Mounter × Option GoError) × State :=
  match lookupMounter s backend with
  | some mounterInst => (.ret (some mounterInst, none), s)
  | none =>
    if backend = r.SpectrumScale then
      buildAndCache s backend .spectrumScale
    else if backend = r.SoftlayerNFS ∨ backend = r.SpectrumScaleNFS then
      buildAndCache s backend .nfs
    else if backend = r.SCBE then
      buildAndCache s backend .scbe
    else
      let err := Errorf env ("Mounter not found for backend: " ++ backend)
      (.ret (none, ErrorRet (some err)), s)

/-! ## Attach-state resolver -/

/-- The method `Controller.getHostAttached`. When the attribute is missing or is
not a string, the error handed to `ErrorRet` is the nil error of the successful
`GetVolumeConfig`. -/
def getHostAttached (env : Env) (r : Resources) (s : State) (volName : String) :
    (String × Option GoError) × State :=
  let s1 := s.log (.clientGetVolumeConfig volName)
  match env.clientGetVolumeConfig s.calls volName with
  | .error err => (("", ErrorRet (some err)), s1)
  | .ok volumeConfig =>
    match volumeConfig.lookup r.ScbeKeyVolAttachToHost with
    | some (.str attachTo) => ((attachTo, none), s1)
    | _ => (("", ErrorRet none), s1)

/-- The method `Controller.doIsAttached`. -/
def doIsAttached (env : Env) (r : Resources) (s : State) (isAttachedRequest : FlexVolumeIsAttachedRequest) :
    (Bool × Option GoError) × State :=
  match isAttachedRequest.Opts.lookup "volumeName" with
  | none =>
    let err := Errorf env "volumeName not found in isAttachedRequest"
    ((false, ErrorRet (some err)), s)
  | some volName =>
    match getHostAttached env r s volName with
    | ((_, some err), s1) => ((false, ErrorRet (some err)), s1)
    | ((attachTo, none), s1) => ((decide (isAttachedRequest.Host = attachTo), none), s1)

/-! ## Protocol steps -/

/-- The function `getVolumeForMountpoint`. -/
def getVolumeForMountpoint (env : Env) (mountpoint : String) : List Volume → Volume × Option GoError
  | [] => (Volume.zero, some (Errorf env "Volume not found"))
  | volume :: volumes =>
    if volume.Mountpoint = mountpoint then (volume, none)
    else getVolumeForMountpoint env mountpoint volumes

/-- The function `getHost`. -/
def getHost (env : Env) (s : State) (hostRequest : String) : String × State :=
  if hostRequest ≠ "" then (hostRequest, s)
  else
    match env.osHostname s.calls with
    | .error _ => ("", s.log .osHostname)
    | .ok hostname => (hostname, s.log .osHostname)

/-- The method `Controller.doActivate`. -/
def doActivate (env : Env) (s : State) (backends : List String) : Option GoError × State :=
  let s1 := s.log (.clientActivate backends)
  match env.clientActivate s.calls backends with
  | some err => (ErrorRet (some err), s1)
  | none => (none, s1)

/-- The method `Controller.doAttach`. -/
def doAttach (env : Env) (s : State) (attachRequest : FlexVolumeAttachRequest) : Option GoError × State :=
  let (host, s1) := getHost env s attachRequest.Host
  let s2 := s1.log (.clientAttach attachRequest.Name host)
  match env.clientAttach s1.calls attachRequest.Name host with
  | some err => (ErrorRet (some err), s2)
  | none => (none, s2)

/-- The part of `Controller.doDetach` after the attachment check: resolve an
empty host with the attach-state resolver, then call the remote `Detach`. -/
def doDetachRemote (env : Env) (r : Resources) (s : State) (detachRequest : FlexVolumeDetachRequest) :
    Option GoError × State :=
  let resolved : (String × Option GoError) × State :=
    if detachRequest.Host = "" then getHostAttached env r s detachRequest.Name
    else ((detachRequest.Host, none), s)
  match resolved with
  | ((_, some err), s1) => (ErrorRet (some err), s1)
  | ((host, none), s1) =>
    let s2 := s1.log (.clientDetach detachRequest.Name host)
    match env.clientDetach s1.calls detachRequest.Name host with
    | some err => (ErrorRet (some err), s2)
    | none => (none, s2)

/-- The method `Controller.doDetach`. -/
def doDetach (env : Env) (r : Resources) (s : State) (detachRequest : FlexVolumeDetachRequest)
    (checkIfAttached : Bool) : Option GoError × State :=
  if checkIfAttached then
    let isAttachedRequest : FlexVolumeIsAttachedRequest :=
      { Name := "", Host := detachRequest.Host, Opts := [("volumeName", detachRequest.Name)] }
    match doIsAttached env r s isAttachedRequest with
    | ((_, some err), s1) => (ErrorRet (some err), s1)
    | ((false, none), s1) => (none, s1)
    | ((true, none), s1) => doDetachRemote env r s1 detachRequest
  else doDetachRemote env r s detachRequest

/-- The method `Controller.doMount`. The error of `GetVolume` is overwritten by
the result of `getMounterForBackend` without being read. -/
def doMount (env : Env) (r : Resources) (s : State) (mountRequest : FlexVolumeMountRequest) :
    Outcome (String × Option GoError) × State :=
  let name := mountRequest.MountDevice
  let s1 := s.log (.clientGetVolumeConfig name)
  match env.clientGetVolumeConfig s.calls name with
  | .error err => (.ret ("", ErrorRet (some err)), s1)
  | .ok volumeConfig =>
    let volume := (env.clientGetVolume s1.calls name).1
    let s2 := s1.log (.clientGetVolume name)
    match getMounterForBackend env r s2 volume.Backend with
    | (.panic p, s3) => (.panic p, s3)
    | (.ret (_, some err), s3) =>
      let err1 := Errorf env ("Error determining mounter for volume: " ++ err.text)
      (.ret ("", ErrorRet (some err1)), s3)
    | (.ret (none, none), s3) => (.panic "invalid memory address or nil pointer dereference", s3)
    | (.ret (some mounter, none), s3) =>
      match mountRequest.Opts.lookup "Wwn" with
      | none =>
        let err1 := Errorf env "mountRequest.Opts[Wwn] not found"
        (.ret ("", ErrorRet (some err1)), s3)
      | some wwn =>
        let volumeMountpoint := r.PathToMountUbiquityBlockDevices wwn
        let s4 := s3.log (.mounterMount mounter volumeMountpoint volumeConfig)
        match env.mounterMount s3.calls mounter volumeMountpoint volumeConfig with
        | .error err => (.ret ("", ErrorRet (some err)), s4)
        | .ok mountpoint => (.ret (mountpoint, none), s4)

/-- The end of `Controller.doAfterMount`: run `/bin/ln -s mountedPath lnPath`.
When the command fails an error is built from the captured standard error and
handed to `ErrorRet`, whose result is dropped; the method then returns nil. -/
def createSymlink (env : Env) (s : State) (mountedPath lnPath : String) : Option GoError × State :=
  let s1 := s.log (.ln mountedPath lnPath)
  match env.lnRun s.calls mountedPath lnPath with
  | some stderr =>
    let err := Errorf env ("Controller: mount failed to symlink " ++ env.goSyntaxString stderr)
    let _dropped := ErrorRet (some err)
    (none, s1)
  | none => (none, s1)

/-- The method `Controller.doAfterMount`. -/
def doAfterMount (env : Env) (r : Resources) (s : State) (mountRequest : FlexVolumeMountRequest)
    (mountedPath : String) : Option GoError × State :=
  if mountRequest.Version = r.KubernetesVersion_1_5 then
    let dir := filepathDir mountRequest.MountPath
    let lnPath := mountRequest.MountPath
    let k8sRequiredMountPoint := pathJoin [mountRequest.MountPath, mountRequest.MountDevice]
    let s1 := s.log (.osStat k8sRequiredMountPoint)
    match env.osStat s.calls k8sRequiredMountPoint with
    | none => createSymlink env s1 mountedPath lnPath
    | some err =>
      if err.isNotExist then
        let s2 := s1.log (.osMkdirAll dir)
        match env.osMkdirAll s1.calls dir with
        | none => createSymlink env s2 mountedPath lnPath
        | some err1 =>
          if !err1.isExist then
            let err2 := Errorf env ("Failed creating volume directory " ++ err1.goSyntax)
            (ErrorRet (some err2), s2)
          else createSymlink env s2 mountedPath lnPath
      else createSymlink env s1 mountedPath lnPath
  else
    let ubiquityMountRoot := r.PathToMountUbiquityBlockDevices ""
    let lnPath :=
      if HasPrefix mountedPath ubiquityMountRoot then mountRequest.MountPath
      else (pathSplit mountRequest.MountPath).1
    let s1 := s.log (.osRemove mountRequest.MountPath)
    match env.osRemove s.calls mountRequest.MountPath with
    | none => createSymlink env s1 mountedPath lnPath
    | some err =>
      if !err.isExist then
        let err1 := Errorf env ("Failed removing existing volume directory " ++ err.goSyntax)
        (ErrorRet (some err1), s1)
      else createSymlink env s1 mountedPath lnPath

/-- The method `Controller.doUnmountScbe`. The error of `GetVolume` is
overwritten by the result of `getMounterForBackend` without being read. -/
def doUnmountScbe (env : Env) (r : Resources) (s : State) (unmountRequest : FlexVolumeUnmountRequest)
    (_realMountPoint : String) : Outcome (Option GoError) × State :=
  let pvName := pathBase unmountRequest.MountPath
  let volume := (env.clientGetVolume s.calls pvName).1
  let s1 := s.log (.clientGetVolume pvName)
  match getMounterForBackend env r s1 volume.Backend with
  | (.panic p, s2) => (.panic p, s2)
  | (.ret (_, some err), s2) =>
    let err1 := Errorf env ("Error determining mounter for volume: " ++ err.text)
    (.ret (ErrorRet (some err1)), s2)
  | (.ret (none, none), s2) => (.panic "invalid memory address or nil pointer dereference", s2)
  | (.ret (some mounter, none), s2) =>
    let s3 := s2.log (.clientGetVolumeConfig pvName)
    match env.clientGetVolumeConfig s2.calls pvName with
    | .error err =>
      let err1 := Errorf env ("Error unmount for volume: " ++ err.text)
      (.ret (ErrorRet (some err1)), s3)
    | .ok volumeConfig =>
      let s4 := s3.log (.mounterUnmount mounter volumeConfig)
      match env.mounterUnmount s3.calls mounter volumeConfig with
      | some err => (.ret (ErrorRet (some err)), s4)
      | none =>
        let s5 := s4.log (.execRemove unmountRequest.MountPath)
        match env.execRemove s4.calls unmountRequest.MountPath with
        | some err =>
          let err1 := Errorf env
            ("fail to remove slink " ++ unmountRequest.MountPath ++ ". Error " ++ err.goSyntax)
          (.ret (ErrorRet (some err1)), s5)
        | none => (.ret none, s5)

/-- The method `Controller.doAfterDetach`. -/
def doAfterDetach (env : Env) (r : Resources) (s : State) (detachRequest : FlexVolumeDetachRequest) :
    Outcome (Option GoError) × State :=
  let volume := (env.clientGetVolume s.calls detachRequest.Name).1
  let s1 := s.log (.clientGetVolume detachRequest.Name)
  match getMounterForBackend env r s1 volume.Backend with
  | (.panic p, s2) => (.panic p, s2)
  | (.ret (_, some err), s2) =>
    let err1 := Errorf env ("Error determining mounter for volume: " ++ err.text)
    (.ret (ErrorRet (some err1)), s2)
  | (.ret (none, none), s2) => (.panic "invalid memory address or nil pointer dereference", s2)
  | (.ret (some mounter, none), s2) =>
    let s3 := s2.log (.clientGetVolumeConfig detachRequest.Name)
    match env.clientGetVolumeConfig s2.calls detachRequest.Name with
    | .error err =>
      let err1 := Errorf env ("Error for volume: " ++ err.text)
      (.ret (ErrorRet (some err1)), s3)
    | .ok volumeConfig =>
      let s4 := s3.log (.mounterActionAfterDetach mounter volumeConfig)
      match env.mounterActionAfterDetach s3.calls mounter volumeConfig with
      | some err =>
        let err1 := Errorf env
          ("Error execute action after detaching the volume : " ++ err.goSyntax)
        (.ret (ErrorRet (some err1)), s4)
      | none => (.ret none, s4)

/-- The method `Controller.doUnmountSsc`. -/
def doUnmountSsc (env : Env) (s : State) (unmountRequest : FlexVolumeUnmountRequest)
    (_realMountPoint : String) : Option GoError × State :=
  let s1 := s.log .clientListVolumes
  match env.clientListVolumes s.calls with
  | .error err =>
    let err1 := Errorf env
      ("Error getting the volume list from ubiquity server " ++ err.goSyntax)
    (ErrorRet (some err1), s1)
  | .ok volumes =>
    match getVolumeForMountpoint env unmountRequest.MountPath volumes with
    | (_, some err) =>
      let err1 := Errorf env
        ("Error finding the volume with mountpoint [" ++ unmountRequest.MountPath
          ++ "] from the list of ubiquity volumes " ++ env.goSyntaxVolumes volumes
          ++ ". Error is : " ++ err.goSyntax)
      (ErrorRet (some err1), s1)
    | (volume, none) =>
      let s2 := s1.log (.clientDetach volume.Name "")
      match env.clientDetach s1.calls volume.Name "" with
      | none => (none, s2)
      | some err =>
        if err.text ≠ "fileset not linked" then
          let err1 := Errorf env
            ("Failed to unmount volume [" ++ volume.Name ++ "] on mountpoint ["
              ++ unmountRequest.MountPath ++ "]. Error: " ++ err.goSyntax)
          (ErrorRet (some err1), s2)
        else (none, s2)

/-- The method `Controller.doLegacyDetach`. -/
def doLegacyDetach (env : Env) (r : Resources) (s : State) (unmountRequest : FlexVolumeUnmountRequest) :
    Outcome (Option GoError) × State :=
  let pvName := pathBase unmountRequest.MountPath
  let detachRequest : FlexVolumeDetachRequest := { Name := pvName }
  match doDetach env r s detachRequest false with
  | (some err, s1) => (.ret (ErrorRet (some err)), s1)
  | (none, s1) =>
    match doAfterDetach env r s1 detachRequest with
    | (.panic p, s2) => (.panic p, s2)
    | (.ret (some err), s2) => (.ret (ErrorRet (some err)), s2)
    | (.ret none, s2) => (.ret none, s2)

/-! ## Operation entry points -/

/-- The method `Controller.Init`. -/
def Init (s : State) : FlexVolumeResponse × State :=
  ({ Status := "Success", Message := "Plugin init successfully" }, s)

/-- The method `Controller.TestUbiquity`, on the backends of the given config. -/
def TestUbiquity (env : Env) (s : State) (backends : List String) : FlexVolumeResponse × State :=
  match doActivate env s backends with
  | (some err, s1) =>
    ({ Status := "Failure", Message := "Test ubiquity failed " ++ err.goSyntax ++ " " }, s1)
  | (none, s1) => ({ Status := "Success", Message := "Test ubiquity successfully" }, s1)

/-- The method `Controller.Attach`. -/
def Attach (env : Env) (s : State) (attachRequest : FlexVolumeAttachRequest) :
    FlexVolumeResponse × State :=
  match doAttach env s attachRequest with
  | (some err, s1) =>
    let msg := "Failed to attach volume [" ++ attachRequest.Name ++ "], Error: " ++ err.goSyntax
    ({ Status := "Failure", Message := msg }, s1)
  | (none, s1) => ({ Status := "Success" }, s1)

/-- The method `Controller.GetVolumeName`. -/
def GetVolumeName (s : State) : FlexVolumeResponse × State :=
  ({ Status := "Not supported" }, s)

/-- The method `Controller.WaitForAttach`. -/
def WaitForAttach (s : State) : FlexVolumeResponse × State :=
  ({ Status := "Not supported" }, s)

/-- The method `Controller.IsAttached`. -/
def IsAttached (env : Env) (r : Resources) (s : State) (isAttachedRequest : FlexVolumeIsAttachedRequest) :
    FlexVolumeResponse × State :=
  match doIsAttached env r s isAttachedRequest with
  | ((_, some err), s1) =>
    let msg := "Failed to check IsAttached volume [" ++ isAttachedRequest.Name
      ++ "], Error: " ++ err.goSyntax
    ({ Status := "Failure", Message := msg }, s1)
  | ((isAttached, none), s1) => ({ Status := "Success", Attached := isAttached }, s1)

/-- The method `Controller.Detach`. -/
def Detach (env : Env) (r : Resources) (s : State) (detachRequest : FlexVolumeDetachRequest) :
    FlexVolumeResponse × State :=
  if detachRequest.Version = r.KubernetesVersion_1_5 then
    ({ Status := "Success" }, s)
  else
    match doDetach env r s detachRequest true with
    | (some err, s1) =>
      let msg := "Failed to detach volume [" ++ detachRequest.Name ++ "] from host ["
        ++ detachRequest.Host ++ "]. Error: " ++ err.goSyntax
      ({ Status := "Failure", Message := msg, Device := "" }, s1)
    | (none, s1) => ({ Status := "Success" }, s1)

/-- The method `Controller.MountDevice`. -/
def MountDevice (s : State) : FlexVolumeResponse × State :=
  ({ Status := "Not supported" }, s)

/-- The method `Controller.UnmountDevice`. -/
def UnmountDevice (s : State) : FlexVolumeResponse × State :=
  ({ Status := "Not supported" }, s)

/-- The method `Controller.Mount`. -/
def Mount (env : Env) (r : Resources) (s : State) (mountRequest : FlexVolumeMountRequest) :
    Outcome FlexVolumeResponse × State :=
  match doMount env r s mountRequest with
  | (.panic p, s1) => (.panic p, s1)
  | (.ret (_, some err), s1) => (.ret { Status := "Failure", Message := err.text }, s1)
  | (.ret (mountedPath, none), s1) =>
    match doAfterMount env r s1 mountRequest mountedPath with
    | (some err, s2) => (.ret { Status := "Failure", Message := err.text }, s2)
    | (none, s2) => (.ret { Status := "Success" }, s2)

/-- The loop at the start of `Controller.Unmount`: `TryLock` until it returns
nil, sleeping 500 ms after each failure. `fuel` bounds the number of attempts;
the result is `none` when none of them obtained the lock. -/
def acquireUnmountFlock (env : Env) (s : State) : Nat → Option State
  | 0 => none
  | fuel + 1 =>
    match env.tryLock s.calls with
    | none => some { s.log .tryLock with unmountFlockHeld := true }
    | some _ => acquireUnmountFlock env ((s.log .tryLock).log .sleep) fuel

/-- The deferred `c.unmountFlock.Unlock()`. -/
def releaseUnmountFlock (s : State) : State :=
  { s.log .unlock with unmountFlockHeld := false }

/-- The body of `Controller.Unmount` once the lock is held, up to its return
(or panic). -/
def unmountLocked (env : Env) (r : Resources) (s : State) (unmountRequest : FlexVolumeUnmountRequest) :
    Outcome FlexVolumeResponse × State :=
  let s1 := s.log (.execEvalSymlinks unmountRequest.MountPath)
  match env.execEvalSymlinks s.calls unmountRequest.MountPath with
  | .error err =>
    let msg := "Cannot execute umount because the mountPath [" ++ unmountRequest.MountPath
      ++ "] is not a symlink as expected. Error: " ++ err.goSyntax
    (.ret { Status := "Failure", Message := msg, Device := "" }, s1)
  | .ok realMountPoint =>
    let ubiquityMountRoot := r.PathToMountUbiquityBlockDevices ""
    let unmounted : Outcome (Option GoError) × State :=
      if HasPrefix realMountPoint ubiquityMountRoot then
        doUnmountScbe env r s1 unmountRequest realMountPoint
      else
        match doUnmountSsc env s1 unmountRequest realMountPoint with
        | (err, s2) => (.ret err, s2)
    match unmounted with
    | (.panic p, s2) => (.panic p, s2)
    | (.ret (some err), s2) => (.ret { Status := "Failure", Message := err.text }, s2)
    | (.ret none, s2) =>
      match doLegacyDetach env r s2 unmountRequest with
      | (.panic p, s3) => (.panic p, s3)
      | (.ret (some err), s3) => (.ret { Status := "Failure", Message := err.text }, s3)
      | (.ret none, s3) => (.ret { Status := "Success" }, s3)

/-- The method `Controller.Unmount`: `none` when the lock was not obtained
within `fuel` attempts (the method is then still waiting). The deferred unlock
runs on every way out of the body, a panic included. -/
def Unmount (env : Env) (r : Resources) (s : State) (unmountRequest : FlexVolumeUnmountRequest)
    (fuel : Nat) : Option (Outcome FlexVolumeResponse × State) :=
  match acquireUnmountFlock env s fuel with
  | none => none
  | some s1 =>
    match unmountLocked env r s1 unmountRequest with
    | (out, s2) => some (out, releaseUnmountFlock s2)

/-! ## Concrete constants and collaborators used in the examples -/

/-- The values of the constants in `github.com/IBM/ubiquity/resources` and in
`k8sresources`. -/
def ubiquityResources : Resources :=
  { SpectrumScale := "spectrum-scale"
    SoftlayerNFS := "softlayer-nfs"
    SpectrumScaleNFS := "spectrum-scale-nfs"
    SCBE := "scbe"
    ScbeKeyVolAttachToHost := "attach-to"
    PathToMountUbiquityBlockDevices := fun w => "/ubiquity/" ++ w
    KubernetesVersion_1_5 := "1.5" }

/-- An error with the given text, as `errors.New` builds it. -/
def mkError (text : String) : GoError :=
  { text := text, goSyntax := "&errors.errorString\x7bs:\"" ++ text ++ "\"\x7d",
    isExist := false, isNotExist := false }

/-- Collaborators that always succeed: every volume is an SCBE volume mounted at
its own name and attached to `node-b`, the lock is free, a mounter mounts at the
mountpoint it is given, a symlink resolves to a block-device mount. -/
def quietEnv : Env :=
  { clientActivate := fun _ _ => none
    clientAttach := fun _ _ _ => none
    clientDetach := fun _ _ _ => none
    clientGetVolume := fun _ name => ({ Name := name, Backend := "scbe", Mountpoint := name }, none)
    clientGetVolumeConfig := fun _ _ => .ok [("attach-to", .str "node-b")]
    clientListVolumes := fun _ => .ok []
    mounterMount := fun _ _ mountpoint _ => .ok mountpoint
    mounterUnmount := fun _ _ _ => none
    mounterActionAfterDetach := fun _ _ _ => none
    execEvalSymlinks := fun _ _ => .ok "/ubiquity/6005076"
    execRemove := fun _ _ => none
    osStat := fun _ _ => none
    osMkdirAll := fun _ _ => none
    osRemove := fun _ _ => none
    osHostname := fun _ => .ok "node-a"
    lnRun := fun _ _ _ => none
    tryLock := fun _ => none
    goSyntaxString := fun t => "\"" ++ t ++ "\""
    goSyntaxVolumes := fun _ => "[]resources.Volume" }

/-- A controller as `NewController` returns it. -/
def freshController : State := { mounterPerBackend := some [] }

/-- A controller as `NewControllerWithClient` returns it. -/
def testController : State := { mounterPerBackend := none }

/-- A call to the remote control-plane or to a backend executor. -/
def Call.isRemoteOrMounter (c : Call) : Bool :=
  c.isClient || c.isMounter

/-- An IsAttached query for host `node-a` about volume `pvc-1`. -/
def nodeAQuery : FlexVolumeIsAttachedRequest :=
  { Name := "pvc-1", Host := "node-a", Opts := [("volumeName", "pvc-1")] }

/-- A Mount request of the current protocol variant for volume `pvc-1`. -/
def pvcMount : FlexVolumeMountRequest :=
  { MountPath := "/var/lib/kubelet/pods/x/volumes/y/pvc-1", MountDevice := "pvc-1",
    Opts := [("Wwn", "60050")], Version := "1.6" }

/-- An Unmount request for the mount path of `pvcMount`. -/
def pvcUnmount : FlexVolumeUnmountRequest :=
  { MountPath := "/var/lib/kubelet/pods/x/volumes/y/pvc-1" }

/-- A control-plane whose volume configs lack the attached-host attribute. -/
def missingAttributeEnv : Env :=
  { quietEnv with clientGetVolumeConfig := fun _ _ => .ok [("volume-name", .str "pvc-1")] }

/-- A control-plane whose volume configs hold a non-string attached-host
attribute. -/
def nonStringAttributeEnv : Env :=
  { quietEnv with clientGetVolumeConfig := fun _ _ => .ok [("attach-to", .other 0)] }

/-- Collaborators of which only `/bin/ln` fails. -/
def lnFailsEnv : Env :=
  { quietEnv with lnRun := fun _ _ _ => some "ln: failed to create symbolic link: File exists" }

/-- A control-plane whose `Detach` answers "fileset not linked". -/
def notLinkedEnv : Env :=
  { quietEnv with clientDetach := fun _ _ _ => some (mkError "fileset not linked") }

/-- A Detach request of the current protocol variant for the host `pvc-1` is
attached to. -/
def nodeBDetach : FlexVolumeDetachRequest :=
  { Name := "pvc-1", Host := "node-b", Version := "1.6" }

/-- The lock is busy for the first two attempts and the mount path is not a
symlink. -/
def notSymlinkEnv : Env :=
  { quietEnv with
    tryLock := fun calls => if calls.length < 4 then some (mkError "Locked by other process") else none
    execEvalSymlinks := fun _ _ => .error (mkError "lstat: no such file or directory") }

/-- A control-plane whose `GetVolume` returns an error together with a volume. -/
def getVolumeFailsEnv : Env :=
  { quietEnv with
    clientGetVolume := fun _ name =>
      ({ Name := name, Backend := "scbe", Mountpoint := name }, some (mkError "connection refused")) }

/-- The envelope has one of the three statuses of the protocol. -/
def FlexVolumeResponse.hasProtocolStatus (resp : FlexVolumeResponse) : Prop :=
  resp.Status = "Success" ∨ resp.Status = "Failure" ∨ resp.Status = "Not supported"

/-- The envelope carries a message only when its status is Failure. -/
def FlexVolumeResponse.messageOnlyOnFailure (resp : FlexVolumeResponse) : Prop :=
  resp.Message ≠ "" → resp.Status = "Failure"

/-- The backend is one of the kinds the registry can build an executor for. -/
def Resources.isKnownBackend (r : Resources) (backend : String) : Prop :=
  backend = r.SpectrumScale ∨ backend = r.SoftlayerNFS ∨ backend = r.SpectrumScaleNFS
    ∨ backend = r.SCBE

/-- The state after asking the registry for each backend of the list in turn,
stopping at a panic. -/
def requestMounters (env : Env) (r : Resources) : State → List String → State
  | s, [] => s
  | s, backend :: rest =>
    match getMounterForBackend env r s backend with
    | (.panic _, s1) => s1
    | (.ret _, s1) => requestMounters env r s1 rest

/-- The backend names the registry holds an executor for. -/
def State.cachedBackends (s : State) : List String :=
  (s.mounterPerBackend.getD []).map Prod.fst

/-- A call to the `Mount` method of a backend executor. -/
def Call.isMounterMount : Call → Bool
  | .mounterMount _ _ _ => true
  | _ => false

/-- The error `os.Remove` returns for a path that does not exist. -/
def removeNotExistError : GoError :=
  { text := "remove /var/lib/kubelet/pods/x/volumes/y/pvc-1: no such file or directory"
    goSyntax := "&os.PathError\x7bOp:\"remove\", Path:\"/var/lib/kubelet/pods/x/volumes/y/pvc-1\", Err:0x2\x7d"
    isExist := false
    isNotExist := true }

/-- Collaborators that succeed, on a node where no directory exists at the
mount path: `os.Remove` reports that the path does not exist. -/
def removeNotExistEnv : Env :=
  { quietEnv with osRemove := fun _ _ => some removeNotExistError }

/-- The Mount request `pvcMount` without the `Wwn` option. -/
def noWwnMount : FlexVolumeMountRequest :=
  { pvcMount with Opts := [] }

/-- The Mount request `pvcMount` with a mount path that ends in a separator. -/
def trailingSlashMount : FlexVolumeMountRequest :=
  { pvcMount with MountPath := "/var/lib/kubelet/pods/x/volumes/y/pvc-1/" }

/-- A filesystem-backed volume `pvc-1` mounted at the mount path of
`pvcUnmount`, whose symlink resolves outside the block-mount namespace, on a
control-plane whose `Detach` answers "fileset not linked". -/
def sscNotLinkedEnv : Env :=
  { quietEnv with
    execEvalSymlinks := fun _ _ => .ok "/gpfs/fs1/pvc-1"
    clientListVolumes := fun _ =>
      .ok [{ Name := "pvc-1", Backend := "spectrum-scale",
             Mountpoint := "/var/lib/kubelet/pods/x/volumes/y/pvc-1" }]
    clientDetach := fun _ _ _ => some (mkError "fileset not linked") }

/-! ## Attach-state queries -/

/-- C1: when the request's options hold a volumeName and the attach-state
resolver returns a host h with a nil error, IsAttached returns status Success
and reports attached exactly when the request's host equals h; a request for a
different host is answered attached = false. -/
theorem isAttached_iff_host_eq (env : Env) (r : Resources) (s s1 : State)
    (req : FlexVolumeIsAttachedRequest) (volName h : String)
    (hopt : req.Opts.lookup "volumeName" = some volName)
    (hres : getHostAttached env r s volName = ((h, none), s1)) :
    ∃ resp, IsAttached env r s req = (resp, s1) ∧ resp.Status = "Success" ∧
      (resp.Attached = true ↔ req.Host = h) ∧ (req.Host ≠ h → resp.Attached = false) := by
  simp [IsAttached, doIsAttached, hopt, hres]

/-- C1 at a concrete query: host node-a is asked about while the resolver
reports node-b. -/
theorem isAttached_iff_host_eq_witness :
    nodeAQuery.Opts.lookup "volumeName" = some "pvc-1" ∧
    getHostAttached quietEnv ubiquityResources freshController "pvc-1"
      = (("node-b", none), freshController.log (.clientGetVolumeConfig "pvc-1")) ∧
    ∃ resp, IsAttached quietEnv ubiquityResources freshController nodeAQuery
        = (resp, freshController.log (.clientGetVolumeConfig "pvc-1")) ∧
      resp.Status = "Success" ∧
      (resp.Attached = true ↔ nodeAQuery.Host = "node-b") ∧
      (nodeAQuery.Host ≠ "node-b" → resp.Attached = false) :=
  ⟨by rfl, by rfl,
    isAttached_iff_host_eq quietEnv ubiquityResources freshController _ nodeAQuery "pvc-1" "node-b"
      (by rfl) (by rfl)⟩

/-- C2: with a config that is fetched successfully but has no attached-host
attribute, or a non-string one, getHostAttached returns the empty host together
with a nil error. -/
theorem getHostAttached_missing_attribute_nil_error :
    missingAttributeEnv.clientGetVolumeConfig [] "pvc-1" = .ok [("volume-name", .str "pvc-1")] ∧
    (getHostAttached missingAttributeEnv ubiquityResources freshController "pvc-1").1 = ("", none) ∧
    nonStringAttributeEnv.clientGetVolumeConfig [] "pvc-1" = .ok [("attach-to", .other 0)] ∧
    (getHostAttached nonStringAttributeEnv ubiquityResources freshController "pvc-1").1
      = ("", none) := by
  refine ⟨rfl, ?_, rfl, ?_⟩ <;> rfl

/-! ## Mount -/

/-- C3: the backend executor mounts the volume, /bin/ln fails with a diagnostic
on standard error, and Mount still returns status Success with an empty
message. -/
theorem mount_success_when_ln_fails :
    (doMount lnFailsEnv ubiquityResources freshController pvcMount).1
      = .ret ("/ubiquity/60050", none) ∧
    lnFailsEnv.lnRun
        (doMount lnFailsEnv ubiquityResources freshController pvcMount).2.calls
        "/ubiquity/60050" pvcMount.MountPath
      = some "ln: failed to create symbolic link: File exists" ∧
    (Mount lnFailsEnv ubiquityResources freshController pvcMount).1
      = .ret { Status := "Success", Message := "" } := by
  refine ⟨?_, ?_, ?_⟩ <;> rfl

/-! ## Detach -/

/-- C4: the volume is attached to the requested host, the remote Detach answers
"fileset not linked", and Detach returns Failure instead of Success. -/
theorem detach_not_linked_is_failure :
    (doIsAttached notLinkedEnv ubiquityResources freshController
        { Name := "", Host := nodeBDetach.Host, Opts := [("volumeName", nodeBDetach.Name)] }).1
      = (true, none) ∧
    (notLinkedEnv.clientDetach [.clientGetVolumeConfig "pvc-1"] "pvc-1" "node-b").map GoError.text
      = some "fileset not linked" ∧
    nodeBDetach.Version ≠ ubiquityResources.KubernetesVersion_1_5 ∧
    (Detach notLinkedEnv ubiquityResources freshController nodeBDetach).1.Status = "Failure" ∧
    (Detach notLinkedEnv ubiquityResources freshController nodeBDetach).1.Status ≠ "Success" := by
  refine ⟨?_, ?_, ?_, ?_, ?_⟩ <;> decide

/-- The remote Detach step of doDetach, on both of its routes (a host given by
the caller, or an empty host resolved by the attach-state resolver, as in the
legacy detach of Unmount): every error of the remote Detach is returned as it
is, whatever its text, "fileset not linked" included. -/
theorem doDetachRemote_passes_on_error (env : Env) (r : Resources) (s s1 : State)
    (req : FlexVolumeDetachRequest) (host : String) (err : GoError)
    (hres : (if req.Host = "" then getHostAttached env r s req.Name
        else ((req.Host, none), s)) = ((host, none), s1))
    (hdet : env.clientDetach s1.calls req.Name host = some err) :
    doDetachRemote env r s req = (some err, s1.log (.clientDetach req.Name host)) := by
  simp only [doDetachRemote, hres, hdet, ErrorRet]

/-- The filesystem-backed unmount step does what doDetach misses: doUnmountSsc
returns no error when the remote Detach of the volume found for the mount path
answers "fileset not linked". -/
theorem doUnmountSsc_tolerates_not_linked (env : Env) (t : State)
    (ureq : FlexVolumeUnmountRequest) (real : String) (volumes : List Volume)
    (volume : Volume) (err : GoError)
    (hlist : env.clientListVolumes t.calls = .ok volumes)
    (hfind : getVolumeForMountpoint env ureq.MountPath volumes = (volume, none))
    (hdet : env.clientDetach (t.log .clientListVolumes).calls volume.Name "" = some err)
    (htext : err.text = "fileset not linked") :
    (doUnmountSsc env t ureq real).1 = none := by
  simp [doUnmountSsc, hlist, hfind, hdet, htext]

/-- Unmount of a filesystem-backed volume whose fileset is not linked: the
unmount step tolerates the "fileset not linked" answer, the legacy detach that
follows passes the same answer on, and Unmount returns Failure. -/
theorem unmount_not_linked_is_failure :
    (doUnmountSsc sscNotLinkedEnv
        ((freshController.log .tryLock).log (.execEvalSymlinks pvcUnmount.MountPath))
        pvcUnmount "/gpfs/fs1/pvc-1").1 = none ∧
    (Unmount sscNotLinkedEnv ubiquityResources freshController pvcUnmount 1).map Prod.fst
      = some (.ret { Status := "Failure", Message := "fileset not linked" }) ∧
    (Unmount sscNotLinkedEnv ubiquityResources freshController pvcUnmount 1).map
        (fun res => res.2.calls)
      = some [.tryLock, .execEvalSymlinks "/var/lib/kubelet/pods/x/volumes/y/pvc-1",
          .clientListVolumes, .clientDetach "pvc-1" "",
          .clientGetVolumeConfig "pvc-1", .clientDetach "pvc-1" "node-b", .unlock] := by
  refine ⟨?_, ?_, ?_⟩ <;> rfl

/-! ## Frame lemmas -/

theorem acquireUnmountFlock_frame (env : Env) (p : Call → Bool)
    (hp1 : p .tryLock = false) (hp2 : p .sleep = false) :
    ∀ (fuel : Nat) (s s1 : State), acquireUnmountFlock env s fuel = some s1 →
      s1.mounterPerBackend = s.mounterPerBackend ∧ s1.mountersBuilt = s.mountersBuilt ∧
      s1.unmountFlockHeld = true ∧ s1.calls.filter p = s.calls.filter p := by
  intro fuel
  induction fuel with
  | zero => intro s s1 h; simp [acquireUnmountFlock] at h
  | succ n ih =>
    intro s s1 h
    simp only [acquireUnmountFlock] at h
    split at h
    · cases h
      simp [State.log, hp1]
    · have h1 := ih _ _ h
      simpa [State.log, hp1, hp2] using h1

/-! ## Unmount -/

/-- C5: once Unmount holds the lock, if resolving the mount path as a symlink
fails, Unmount returns status Failure; between its start and its return it
makes no call to the remote control-plane or to a backend executor (the calls of
those kinds are the ones made before), only the symlink resolution and the
unlock follow the lock, and the backend registry is untouched. -/
theorem unmount_fails_when_not_symlink (env : Env) (r : Resources) (s s1 : State)
    (req : FlexVolumeUnmountRequest) (fuel : Nat) (err : GoError)
    (hlock : acquireUnmountFlock env s fuel = some s1)
    (heval : env.execEvalSymlinks s1.calls req.MountPath = .error err) :
    ∃ resp s2, Unmount env r s req fuel = some (.ret resp, s2) ∧
      resp.Status = "Failure" ∧
      s2.calls = s1.calls ++ [.execEvalSymlinks req.MountPath, .unlock] ∧
      s2.calls.filter Call.isRemoteOrMounter = s.calls.filter Call.isRemoteOrMounter ∧
      s2.mounterPerBackend = s.mounterPerBackend ∧ s2.mountersBuilt = s.mountersBuilt := by
  have hf := acquireUnmountFlock_frame env Call.isRemoteOrMounter (by rfl) (by rfl) fuel s s1 hlock
  have hrun : Unmount env r s req fuel
      = some (.ret { Status := "Failure",
                     Message := "Cannot execute umount because the mountPath [" ++ req.MountPath
                       ++ "] is not a symlink as expected. Error: " ++ err.goSyntax,
                     Device := "" },
          releaseUnmountFlock (s1.log (.execEvalSymlinks req.MountPath))) := by
    simp only [Unmount, hlock, unmountLocked, heval]
  refine ⟨_, _, hrun, rfl, ?_, ?_, ?_, ?_⟩
  · simp [releaseUnmountFlock, State.log]
  · simp [releaseUnmountFlock, State.log, hf.2.2.2, Call.isRemoteOrMounter, Call.isClient,
      Call.isMounter]
  · simpa [releaseUnmountFlock, State.log] using hf.1
  · simpa [releaseUnmountFlock, State.log] using hf.2.1

/-- C5 at a concrete request: the lock is obtained at the third attempt and the
mount path is not a symlink. -/
theorem unmount_fails_when_not_symlink_witness :
    acquireUnmountFlock notSymlinkEnv freshController 5
      = some { freshController with
          unmountFlockHeld := true
          calls := [.tryLock, .sleep, .tryLock, .sleep, .tryLock] } ∧
    ∃ resp s2, Unmount notSymlinkEnv ubiquityResources freshController pvcUnmount 5
        = some (.ret resp, s2) ∧
      resp.Status = "Failure" ∧
      s2.calls = [.tryLock, .sleep, .tryLock, .sleep, .tryLock]
        ++ [.execEvalSymlinks pvcUnmount.MountPath, .unlock] ∧
      s2.calls.filter Call.isRemoteOrMounter
        = freshController.calls.filter Call.isRemoteOrMounter ∧
      s2.mounterPerBackend = freshController.mounterPerBackend ∧
      s2.mountersBuilt = freshController.mountersBuilt :=
  ⟨by rfl,
    unmount_fails_when_not_symlink notSymlinkEnv ubiquityResources freshController _ pvcUnmount 5
      (mkError "lstat: no such file or directory") (by rfl) (by rfl)⟩

/-- C6: on a controller built by NewControllerWithClient the backend registry is
the nil map, and a Mount request for a volume of a known backend kind panics
when the registry stores the executor it has just built. -/
theorem mount_panics_on_nil_registry :
    NewControllerWithClient none = .ret testController ∧
    (quietEnv.clientGetVolume [.clientGetVolumeConfig "pvc-1"] "pvc-1").1.Backend
      = ubiquityResources.SCBE ∧
    (Mount quietEnv ubiquityResources testController pvcMount).1
      = .panic "assignment to entry in nil map" := by
  refine ⟨?_, ?_, ?_⟩ <;> rfl

/-! ## Backend registry -/

theorem lookup_eq_none_not_mem (k : String) :
    ∀ (m : List (String × Mounter)), m.lookup k = none → k ∉ m.map Prod.fst := by
  intro m
  induction m with
  | nil => simp
  | cons p m ih =>
    obtain ⟨k1, v⟩ := p
    intro h
    by_cases hk : k = k1
    · subst hk
      simp [List.lookup] at h
    · have hb : (k == k1) = false := by simpa using hk
      simp only [List.lookup, hb] at h
      simp [hk, ih h]

theorem getMounterForBackend_of_cached (env : Env) (r : Resources) (s : State)
    (backend : String) (inst : Mounter) (h : lookupMounter s backend = some inst) :
    getMounterForBackend env r s backend = (.ret (some inst, none), s) := by
  simp [getMounterForBackend, h]

theorem storeMounter_spec (s : State) (backend : String) (kind : MounterKind)
    (hmiss : lookupMounter s backend = none) :
    (s.mounterPerBackend = none ∧
      storeMounter s backend kind
        = (.panic "assignment to entry in nil map",
            { s with mountersBuilt := s.mountersBuilt + 1 })) ∨
    (∃ s1, storeMounter s backend kind = (.ret (), s1) ∧
      s.mounterPerBackend ≠ none ∧ s1.mounterPerBackend ≠ none ∧
      lookupMounter s1 backend = some { kind := kind, id := s.mountersBuilt } ∧
      (∀ k i, lookupMounter s k = some i → lookupMounter s1 k = some i) ∧
      s1.calls = s.calls ∧ s1.unmountFlockHeld = s.unmountFlockHeld ∧
      (s.cachedBackends.Nodup → s1.cachedBackends.Nodup)) := by
  obtain ⟨mp, built, held, calls⟩ := s
  cases mp with
  | none => left; simp [storeMounter]
  | some m =>
    right
    refine ⟨{ mounterPerBackend := some ((backend, { kind := kind, id := built }) :: m),
              mountersBuilt := built + 1, unmountFlockHeld := held, calls := calls },
      by simp [storeMounter], by simp, by simp, ?_, ?_, rfl, rfl, ?_⟩
    · simp [lookupMounter, List.lookup]
    · intro k i hk
      have hne : k ≠ backend := by
        intro heq
        subst heq
        rw [hmiss] at hk
        cases hk
      have hb : (k == backend) = false := by simpa using hne
      simpa [lookupMounter, List.lookup, hb] using hk
    · intro hnd
      have hnot : backend ∉ m.map Prod.fst := by
        apply lookup_eq_none_not_mem
        simpa [lookupMounter] using hmiss
      simp only [State.cachedBackends, Option.getD_some] at hnd
      simp only [State.cachedBackends, Option.getD_some, List.map_cons, List.nodup_cons]
      exact ⟨hnot, hnd⟩

theorem lookupMounter_some_registry (s : State) (backend : String) (inst : Mounter)
    (h : lookupMounter s backend = some inst) : s.mounterPerBackend ≠ none := by
  intro hn
  simp [lookupMounter, hn] at h

/-- The three ways `getMounterForBackend` can end: with an instance that is then
cached, with the not-found error and the state unchanged, or with the panic of
the nil map. -/
theorem getMounterForBackend_spec (env : Env) (r : Resources) (s : State) (backend : String) :
    (∃ inst s1, getMounterForBackend env r s backend = (.ret (some inst, none), s1) ∧
        s1.mounterPerBackend ≠ none ∧ lookupMounter s1 backend = some inst ∧
        (∀ k i, lookupMounter s k = some i → lookupMounter s1 k = some i) ∧
        s1.calls = s.calls ∧ s1.unmountFlockHeld = s.unmountFlockHeld ∧
        (s.cachedBackends.Nodup → s1.cachedBackends.Nodup) ∧
        (lookupMounter s backend = none →
          r.isKnownBackend backend ∧ s.mounterPerBackend ≠ none)) ∨
    (∃ err, getMounterForBackend env r s backend = (.ret (none, some err), s) ∧
        lookupMounter s backend = none ∧ ¬ r.isKnownBackend backend ∧
        err.text = "Mounter not found for backend: " ++ backend) ∨
    (∃ s1, getMounterForBackend env r s backend
          = (.panic "assignment to entry in nil map", s1) ∧
        s.mounterPerBackend = none ∧ r.isKnownBackend backend ∧
        s1.mounterPerBackend = none ∧ s1.calls = s.calls ∧
        s1.unmountFlockHeld = s.unmountFlockHeld) := by
  cases hl : lookupMounter s backend with
  | some inst =>
    left
    exact ⟨inst, s, getMounterForBackend_of_cached env r s backend inst hl,
      lookupMounter_some_registry s backend inst hl, hl, fun _ _ h => h, rfl, rfl,
      fun h => h, fun h => by cases h⟩
  | none =>
    by_cases hknown : r.isKnownBackend backend
    · have hrun : ∃ kind : MounterKind,
          getMounterForBackend env r s backend = buildAndCache s backend kind := by
        simp only [getMounterForBackend, hl]
        by_cases h1 : backend = r.SpectrumScale
        · exact ⟨.spectrumScale, by rw [if_pos h1]⟩
        · by_cases h2 : backend = r.SoftlayerNFS ∨ backend = r.SpectrumScaleNFS
          · exact ⟨.nfs, by rw [if_neg h1, if_pos h2]⟩
          · by_cases h3 : backend = r.SCBE
            · exact ⟨.scbe, by rw [if_neg h1, if_neg h2, if_pos h3]⟩
            · exfalso
              simp only [Resources.isKnownBackend] at hknown
              tauto
      obtain ⟨kind, hrun⟩ := hrun
      rcases storeMounter_spec s backend kind hl with
        ⟨hnil, hst⟩ | ⟨s1, hst, h0, h1, h2, h3, h4, h5, h6⟩
      · right; right
        simp only [buildAndCache, hst] at hrun
        exact ⟨_, hrun, hnil, hknown, by simpa using hnil, rfl, rfl⟩
      · left
        simp only [buildAndCache, hst, h2] at hrun
        exact ⟨_, s1, hrun, h1, h2, h3, h4, h5, h6, fun _ => ⟨hknown, h0⟩⟩
    · right; left
      have h1 : backend ≠ r.SpectrumScale := fun h => hknown (Or.inl h)
      have h2 : ¬ (backend = r.SoftlayerNFS ∨ backend = r.SpectrumScaleNFS) := by
        simp only [Resources.isKnownBackend] at hknown
        tauto
      have h3 : backend ≠ r.SCBE := by
        simp only [Resources.isKnownBackend] at hknown
        tauto
      refine ⟨Errorf env ("Mounter not found for backend: " ++ backend), ?_, rfl, hknown, rfl⟩
      simp only [getMounterForBackend, hl, h1, h2, h3, if_false, ErrorRet]

theorem requestMounters_keeps (env : Env) (r : Resources) (backend : String) (inst : Mounter) :
    ∀ (later : List String) (s : State), lookupMounter s backend = some inst →
      lookupMounter (requestMounters env r s later) backend = some inst := by
  intro later
  induction later with
  | nil => intro s h; exact h
  | cons k rest ih =>
    intro s h
    rcases getMounterForBackend_spec env r s k with
      ⟨i, s1, hrun, _, _, hkeep, _⟩ | ⟨err, hrun, _⟩ | ⟨s1, hrun, hnil, _⟩
    · simp only [requestMounters, hrun]
      exact ih s1 (hkeep _ _ h)
    · simp only [requestMounters, hrun]
      exact ih s h
    · exact absurd hnil (lookupMounter_some_registry s backend inst h)

theorem requestMounters_nodup (env : Env) (r : Resources) :
    ∀ (later : List String) (s : State), s.cachedBackends.Nodup →
      (requestMounters env r s later).cachedBackends.Nodup := by
  intro later
  induction later with
  | nil => intro s h; exact h
  | cons k rest ih =>
    intro s h
    rcases getMounterForBackend_spec env r s k with
      ⟨i, s1, hrun, _, _, _, _, _, hnd, _⟩ | ⟨err, hrun, _⟩ | ⟨s1, hrun, _, _, hnil, _⟩
    · simp only [requestMounters, hrun]
      exact ih s1 (hnd h)
    · simp only [requestMounters, hrun]
      exact ih s h
    · simp [requestMounters, hrun, State.cachedBackends, hnil]

/-- C8: once getMounterForBackend has returned an instance for a backend, the
instance is cached; after any further requests to the registry, for any
backends, a request for the same backend returns that same instance and leaves
the whole state as it is (no executor is built, the cache is unchanged), and so
does a request in any state whose cache holds the instance. A cache with one
entry per backend keeps one entry per backend. -/
theorem getMounterForBackend_reuses_cached (env : Env) (r : Resources) (s s1 : State)
    (backend : String) (inst : Mounter)
    (h : getMounterForBackend env r s backend = (.ret (some inst, none), s1)) :
    lookupMounter s1 backend = some inst ∧
    (∀ later : List String,
      getMounterForBackend env r (requestMounters env r s1 later) backend
        = (.ret (some inst, none), requestMounters env r s1 later)) ∧
    (∀ s2 : State, lookupMounter s2 backend = some inst →
      getMounterForBackend env r s2 backend = (.ret (some inst, none), s2)) ∧
    (s.cachedBackends.Nodup →
      ∀ later : List String, (requestMounters env r s1 later).cachedBackends.Nodup) := by
  have hcached : lookupMounter s1 backend = some inst := by
    rcases getMounterForBackend_spec env r s backend with
      ⟨i, t, hrun, _, hl, _⟩ | ⟨err, hrun, _⟩ | ⟨t, hrun, _⟩
    · rw [hrun] at h
      simp only [Prod.mk.injEq, Outcome.ret.injEq, Option.some.injEq, and_true] at h
      rw [← h.1, ← h.2]
      exact hl
    · rw [hrun] at h
      simp at h
    · rw [hrun] at h
      simp at h
  refine ⟨hcached, ?_, ?_, ?_⟩
  · intro later
    exact getMounterForBackend_of_cached env r _ backend inst
      (requestMounters_keeps env r backend inst later s1 hcached)
  · intro s2 h2
    exact getMounterForBackend_of_cached env r s2 backend inst h2
  · intro hnd later
    have hnd1 : s1.cachedBackends.Nodup := by
      have := requestMounters_nodup env r [backend] s hnd
      simpa [requestMounters, h] using this
    exact requestMounters_nodup env r later s1 hnd1

/-- C8 on a fresh controller: the SCBE executor built by the first request is
the one returned after requests for other backends. -/
theorem getMounterForBackend_reuses_cached_witness :
    getMounterForBackend quietEnv ubiquityResources freshController "scbe"
      = (.ret (some { kind := .scbe, id := 0 }, none),
          { freshController with
            mounterPerBackend := some [("scbe", { kind := .scbe, id := 0 })]
            mountersBuilt := 1 }) ∧
    getMounterForBackend quietEnv ubiquityResources
        (requestMounters quietEnv ubiquityResources
          { freshController with
            mounterPerBackend := some [("scbe", { kind := .scbe, id := 0 })]
            mountersBuilt := 1 }
          ["softlayer-nfs", "scbe", "unknown"]) "scbe"
      = (.ret (some { kind := .scbe, id := 0 }, none),
          requestMounters quietEnv ubiquityResources
            { freshController with
              mounterPerBackend := some [("scbe", { kind := .scbe, id := 0 })]
              mountersBuilt := 1 }
            ["softlayer-nfs", "scbe", "unknown"]) :=
  ⟨by rfl,
    (getMounterForBackend_reuses_cached quietEnv ubiquityResources freshController _ "scbe"
      { kind := .scbe, id := 0 } (by rfl)).2.1 ["softlayer-nfs", "scbe", "unknown"]⟩

/-- C9: on a controller built by NewControllerWithClient a request to the
registry for any of the four known backend kinds panics instead of returning an
instance. -/
theorem getMounterForBackend_known_kind_panics_on_nil_registry :
    NewControllerWithClient none = .ret testController ∧
    (getMounterForBackend quietEnv ubiquityResources testController "spectrum-scale").1
      = .panic "assignment to entry in nil map" ∧
    (getMounterForBackend quietEnv ubiquityResources testController "softlayer-nfs").1
      = .panic "assignment to entry in nil map" ∧
    (getMounterForBackend quietEnv ubiquityResources testController "spectrum-scale-nfs").1
      = .panic "assignment to entry in nil map" ∧
    (getMounterForBackend quietEnv ubiquityResources testController "scbe").1
      = .panic "assignment to entry in nil map" := by
  refine ⟨?_, ?_, ?_, ?_, ?_⟩ <;> rfl

/-- C10: GetVolume fails (it returns an error together with a volume), and
doUnmountScbe goes on to every later step, the mounter's Unmount and the removal
of the symlink included, and returns no error. -/
theorem doUnmountScbe_ignores_getVolume_error :
    (getVolumeFailsEnv.clientGetVolume [] "pvc-1").2 = some (mkError "connection refused") ∧
    (doUnmountScbe getVolumeFailsEnv ubiquityResources freshController pvcUnmount
        "/ubiquity/60050").1 = .ret none ∧
    (doUnmountScbe getVolumeFailsEnv ubiquityResources freshController pvcUnmount
        "/ubiquity/60050").2.calls
      = [.clientGetVolume "pvc-1", .clientGetVolumeConfig "pvc-1",
         .mounterUnmount { kind := .scbe, id := 0 } [("attach-to", .str "node-b")],
         .execRemove "/var/lib/kubelet/pods/x/volumes/y/pvc-1"] := by
  refine ⟨?_, ?_, ?_⟩ <;> rfl

/-! ## The registry is only written by `getMounterForBackend` -/

theorem getHostAttached_registry (env : Env) (r : Resources) (s : State) (volName : String) :
    (getHostAttached env r s volName).2.mounterPerBackend = s.mounterPerBackend := by
  unfold getHostAttached
  repeat' split
  all_goals rfl

theorem doDetachRemote_registry (env : Env) (r : Resources) (s : State)
    (req : FlexVolumeDetachRequest) :
    (doDetachRemote env r s req).2.mounterPerBackend = s.mounterPerBackend := by
  have h := getHostAttached_registry env r s req.Name
  unfold doDetachRemote
  by_cases hh : req.Host = ""
  · simp only [hh, if_true]
    split
    · next heq => rw [heq] at h; exact h
    · next heq =>
      rw [heq] at h
      split <;> exact h
  · simp only [hh, if_false]
    split <;> rfl

theorem doDetach_registry (env : Env) (r : Resources) (s : State)
    (req : FlexVolumeDetachRequest) :
    (doDetach env r s req false).2.mounterPerBackend = s.mounterPerBackend := by
  simp [doDetach, doDetachRemote_registry]

/-! ## No panic on an initialised registry -/

theorem doMount_no_panic (env : Env) (r : Resources) (s : State)
    (req : FlexVolumeMountRequest) (hs : s.mounterPerBackend ≠ none) :
    (∀ p, (doMount env r s req).1 ≠ .panic p) ∧
      (doMount env r s req).2.mounterPerBackend ≠ none := by
  cases hcfg : env.clientGetVolumeConfig s.calls req.MountDevice with
  | error err =>
    simp only [doMount, hcfg]
    exact ⟨fun p h => (by cases h), hs⟩
  | ok cfg =>
    rcases getMounterForBackend_spec env r
        ((s.log (.clientGetVolumeConfig req.MountDevice)).log (.clientGetVolume req.MountDevice))
        (env.clientGetVolume (s.log (.clientGetVolumeConfig req.MountDevice)).calls
          req.MountDevice).1.Backend with
      ⟨inst, s3, hrun, hreg, _⟩ | ⟨err, hrun, _⟩ | ⟨s3, hrun, hnil, _⟩
    · cases hw : req.Opts.lookup "Wwn" with
      | none =>
        simp only [doMount, hcfg, hrun, hw]
        exact ⟨fun p h => (by cases h), hreg⟩
      | some wwn =>
        cases hm : env.mounterMount s3.calls inst (r.PathToMountUbiquityBlockDevices wwn) cfg with
        | error e =>
          simp only [doMount, hcfg, hrun, hw, hm]
          exact ⟨fun p h => (by cases h), hreg⟩
        | ok mp =>
          simp only [doMount, hcfg, hrun, hw, hm]
          exact ⟨fun p h => (by cases h), hreg⟩
    · simp only [doMount, hcfg, hrun]
      exact ⟨fun p h => (by cases h), hs⟩
    · exact absurd hnil hs

theorem Mount_no_panic (env : Env) (r : Resources) (s : State)
    (req : FlexVolumeMountRequest) (hs : s.mounterPerBackend ≠ none) :
    ∀ p, (Mount env r s req).1 ≠ .panic p := by
  intro p
  have h := (doMount_no_panic env r s req hs).1
  unfold Mount
  split
  · next q s1 heq =>
    rw [heq] at h
    exact absurd rfl (h q)
  · intro hp; cases hp
  · split <;> intro hp <;> cases hp

theorem doUnmountScbe_no_panic (env : Env) (r : Resources) (s : State)
    (req : FlexVolumeUnmountRequest) (real : String) (hs : s.mounterPerBackend ≠ none) :
    (∀ p, (doUnmountScbe env r s req real).1 ≠ .panic p) ∧
      (doUnmountScbe env r s req real).2.mounterPerBackend ≠ none := by
  rcases getMounterForBackend_spec env r (s.log (.clientGetVolume (pathBase req.MountPath)))
      (env.clientGetVolume s.calls (pathBase req.MountPath)).1.Backend with
    ⟨inst, s2, hrun, hreg, _⟩ | ⟨err, hrun, _⟩ | ⟨s2, hrun, hnil, _⟩
  · cases hcfg : env.clientGetVolumeConfig s2.calls (pathBase req.MountPath) with
    | error err =>
      simp only [doUnmountScbe, hrun, hcfg]
      exact ⟨fun p h => (by cases h), hreg⟩
    | ok cfg =>
      cases hu : env.mounterUnmount (s2.log (.clientGetVolumeConfig (pathBase req.MountPath))).calls
          inst cfg with
      | some e =>
        simp only [doUnmountScbe, hrun, hcfg, hu]
        exact ⟨fun p h => (by cases h), hreg⟩
      | none =>
        cases hr : env.execRemove ((s2.log (.clientGetVolumeConfig (pathBase req.MountPath))).log
            (.mounterUnmount inst cfg)).calls req.MountPath with
        | some e =>
          simp only [doUnmountScbe, hrun, hcfg, hu, hr]
          exact ⟨fun p h => (by cases h), hreg⟩
        | none =>
          simp only [doUnmountScbe, hrun, hcfg, hu, hr]
          exact ⟨fun p h => (by cases h), hreg⟩
  · simp only [doUnmountScbe, hrun]
    exact ⟨fun p h => (by cases h), hs⟩
  · exact absurd hnil hs

theorem doAfterDetach_no_panic (env : Env) (r : Resources) (s : State)
    (req : FlexVolumeDetachRequest) (hs : s.mounterPerBackend ≠ none) :
    ∀ p, (doAfterDetach env r s req).1 ≠ .panic p := by
  rcases getMounterForBackend_spec env r (s.log (.clientGetVolume req.Name))
      (env.clientGetVolume s.calls req.Name).1.Backend with
    ⟨inst, s2, hrun, hreg, _⟩ | ⟨err, hrun, _⟩ | ⟨s2, hrun, hnil, _⟩
  · cases hcfg : env.clientGetVolumeConfig s2.calls req.Name with
    | error err =>
      simp only [doAfterDetach, hrun, hcfg]
      exact fun p h => by cases h
    | ok cfg =>
      cases hu : env.mounterActionAfterDetach (s2.log (.clientGetVolumeConfig req.Name)).calls
          inst cfg with
      | some e =>
        simp only [doAfterDetach, hrun, hcfg, hu]
        exact fun p h => by cases h
      | none =>
        simp only [doAfterDetach, hrun, hcfg, hu]
        exact fun p h => by cases h
  · simp only [doAfterDetach, hrun]
    exact fun p h => by cases h
  · exact absurd hnil hs

theorem doLegacyDetach_no_panic (env : Env) (r : Resources) (s : State)
    (req : FlexVolumeUnmountRequest) (hs : s.mounterPerBackend ≠ none) :
    ∀ p, (doLegacyDetach env r s req).1 ≠ .panic p := by
  intro p
  have hreg := doDetach_registry env r s { Name := pathBase req.MountPath }
  unfold doLegacyDetach
  simp only
  split
  · intro hp; cases hp
  · next s1 heq =>
    rw [heq] at hreg
    have h := doAfterDetach_no_panic env r s1 { Name := pathBase req.MountPath }
      (by rw [hreg]; exact hs)
    split
    · next q s2 heq2 =>
      rw [heq2] at h
      exact absurd rfl (h q)
    · intro hp; cases hp
    · intro hp; cases hp

theorem doUnmountSsc_registry (env : Env) (s : State) (req : FlexVolumeUnmountRequest)
    (real : String) :
    (doUnmountSsc env s req real).2.mounterPerBackend = s.mounterPerBackend := by
  unfold doUnmountSsc
  dsimp only
  split
  · rfl
  · split
    · rfl
    · split
      · rfl
      · split <;> rfl

theorem unmountLocked_no_panic (env : Env) (r : Resources) (s : State)
    (req : FlexVolumeUnmountRequest) (hs : s.mounterPerBackend ≠ none) :
    ∀ p, (unmountLocked env r s req).1 ≠ .panic p := by
  intro p
  cases heval : env.execEvalSymlinks s.calls req.MountPath with
  | error err =>
    simp only [unmountLocked, heval]
    intro hp; cases hp
  | ok real =>
    by_cases hpre : HasPrefix real (r.PathToMountUbiquityBlockDevices "") = true
    · have h := doUnmountScbe_no_panic env r (s.log (.execEvalSymlinks req.MountPath)) req real hs
      simp only [unmountLocked, heval, hpre, if_true]
      split
      · next q s2 heq =>
        have h1 := h.1 q
        rw [heq] at h1
        exact absurd rfl h1
      · intro hp; cases hp
      · next s2 heq =>
        have h2 := h.2
        rw [heq] at h2
        have h3 := doLegacyDetach_no_panic env r s2 req h2
        split
        · next q s3 heq3 =>
          rw [heq3] at h3
          exact absurd rfl (h3 q)
        · intro hp; cases hp
        · intro hp; cases hp
    · have h := doUnmountSsc_registry env (s.log (.execEvalSymlinks req.MountPath)) req real
      simp only [unmountLocked, heval, hpre]
      split
      · next q s2 heq => simp at heq
      · intro hp; cases hp
      · next s2 heq =>
        simp only [Bool.false_eq_true, if_false, Prod.mk.injEq, Outcome.ret.injEq] at heq
        have h2 : s2.mounterPerBackend ≠ none := by
          rw [← heq.2, h]
          exact hs
        have h3 := doLegacyDetach_no_panic env r s2 req h2
        split
        · next q s3 heq3 =>
          rw [heq3] at h3
          exact absurd rfl (h3 q)
        · intro hp; cases hp
        · intro hp; cases hp

/-! ## Response envelopes -/

theorem failure_envelope_ok (msg : String) :
    ({ Status := "Failure", Message := msg } : FlexVolumeResponse).hasProtocolStatus ∧
    ({ Status := "Failure", Message := msg } : FlexVolumeResponse).messageOnlyOnFailure :=
  ⟨Or.inr (Or.inl rfl), fun _ => rfl⟩

theorem success_envelope_ok (attached : Bool) :
    ({ Status := "Success", Attached := attached } : FlexVolumeResponse).hasProtocolStatus ∧
    ({ Status := "Success", Attached := attached } : FlexVolumeResponse).messageOnlyOnFailure :=
  ⟨Or.inl rfl, fun h => absurd rfl h⟩

theorem not_supported_envelope_ok :
    ({ Status := "Not supported" } : FlexVolumeResponse).hasProtocolStatus ∧
    ({ Status := "Not supported" } : FlexVolumeResponse).messageOnlyOnFailure :=
  ⟨Or.inr (Or.inr rfl), fun h => absurd rfl h⟩

theorem Mount_envelope (env : Env) (r : Resources) (s s1 : State)
    (req : FlexVolumeMountRequest) (resp : FlexVolumeResponse)
    (h : Mount env r s req = (.ret resp, s1)) :
    resp.hasProtocolStatus ∧ resp.messageOnlyOnFailure := by
  unfold Mount at h
  split at h
  · simp at h
  · simp only [Prod.mk.injEq, Outcome.ret.injEq] at h
    rw [← h.1]
    exact failure_envelope_ok _
  · split at h
    · simp only [Prod.mk.injEq, Outcome.ret.injEq] at h
      rw [← h.1]
      exact failure_envelope_ok _
    · simp only [Prod.mk.injEq, Outcome.ret.injEq] at h
      rw [← h.1]
      exact success_envelope_ok false

theorem unmountLocked_envelope (env : Env) (r : Resources) (s s1 : State)
    (req : FlexVolumeUnmountRequest) (resp : FlexVolumeResponse)
    (h : unmountLocked env r s req = (.ret resp, s1)) :
    resp.hasProtocolStatus ∧ resp.messageOnlyOnFailure := by
  unfold unmountLocked at h
  dsimp only at h
  split at h
  · simp only [Prod.mk.injEq, Outcome.ret.injEq] at h
    rw [← h.1]
    exact failure_envelope_ok _
  · split at h
    · simp at h
    · simp only [Prod.mk.injEq, Outcome.ret.injEq] at h
      rw [← h.1]
      exact failure_envelope_ok _
    · split at h
      · simp at h
      · simp only [Prod.mk.injEq, Outcome.ret.injEq] at h
        rw [← h.1]
        exact failure_envelope_ok _
      · simp only [Prod.mk.injEq, Outcome.ret.injEq] at h
        rw [← h.1]
        exact success_envelope_ok false

/-- C7, refuted as stated: Init returns status Success together with a
non-empty message. -/
theorem init_success_carries_message :
    (Init freshController).1.Status = "Success" ∧
    (Init freshController).1.Message = "Plugin init successfully" ∧
    (Init freshController).1.Message ≠ "" ∧
    ¬ (Init freshController).1.messageOnlyOnFailure := by
  refine ⟨rfl, rfl, by decide, ?_⟩
  intro h
  exact absurd (h (by decide)) (by decide)

/-- C7, amended: every envelope an entry point returns has one of the statuses
Success, Failure and Not supported, and its message is non-empty only when the
status is Failure, except for Init and TestUbiquity, whose Success envelopes
carry the fixed messages "Plugin init successfully" and "Test ubiquity
successfully". Mount returns an envelope whenever the backend registry is
initialised, and Unmount whenever it also obtains the lock. -/
theorem envelope_status_and_message (env : Env) (r : Resources) (s : State)
    (backends : List String) (attachRequest : FlexVolumeAttachRequest)
    (detachRequest : FlexVolumeDetachRequest) (isAttachedRequest : FlexVolumeIsAttachedRequest)
    (mountRequest : FlexVolumeMountRequest) (unmountRequest : FlexVolumeUnmountRequest)
    (fuel : Nat) :
    ((Init s).1.Status = "Success" ∧ (Init s).1.Message = "Plugin init successfully") ∧
    (((TestUbiquity env s backends).1.Status = "Success" ∧
        (TestUbiquity env s backends).1.Message = "Test ubiquity successfully") ∨
      (TestUbiquity env s backends).1.Status = "Failure") ∧
    ((Attach env s attachRequest).1.hasProtocolStatus ∧
      (Attach env s attachRequest).1.messageOnlyOnFailure) ∧
    ((Detach env r s detachRequest).1.hasProtocolStatus ∧
      (Detach env r s detachRequest).1.messageOnlyOnFailure) ∧
    ((IsAttached env r s isAttachedRequest).1.hasProtocolStatus ∧
      (IsAttached env r s isAttachedRequest).1.messageOnlyOnFailure) ∧
    ((GetVolumeName s).1.hasProtocolStatus ∧ (GetVolumeName s).1.messageOnlyOnFailure) ∧
    ((WaitForAttach s).1.hasProtocolStatus ∧ (WaitForAttach s).1.messageOnlyOnFailure) ∧
    ((MountDevice s).1.hasProtocolStatus ∧ (MountDevice s).1.messageOnlyOnFailure) ∧
    ((UnmountDevice s).1.hasProtocolStatus ∧ (UnmountDevice s).1.messageOnlyOnFailure) ∧
    (∀ resp s1, Mount env r s mountRequest = (.ret resp, s1) →
      resp.hasProtocolStatus ∧ resp.messageOnlyOnFailure) ∧
    (s.mounterPerBackend ≠ none → ∃ resp s1, Mount env r s mountRequest = (.ret resp, s1)) ∧
    (∀ resp s1, Unmount env r s unmountRequest fuel = some (.ret resp, s1) →
      resp.hasProtocolStatus ∧ resp.messageOnlyOnFailure) ∧
    (s.mounterPerBackend ≠ none → ∀ s0, acquireUnmountFlock env s fuel = some s0 →
      ∃ resp s1, Unmount env r s unmountRequest fuel = some (.ret resp, s1)) := by
  refine ⟨⟨rfl, rfl⟩, ?_, ?_, ?_, ?_, not_supported_envelope_ok, not_supported_envelope_ok,
    not_supported_envelope_ok, not_supported_envelope_ok, ?_, ?_, ?_, ?_⟩
  · unfold TestUbiquity
    split
    · exact Or.inr rfl
    · exact Or.inl ⟨rfl, rfl⟩
  · unfold Attach
    split
    · exact failure_envelope_ok _
    · exact success_envelope_ok false
  · unfold Detach
    split
    · exact success_envelope_ok false
    · split
      · exact failure_envelope_ok _
      · exact success_envelope_ok false
  · unfold IsAttached
    split
    · exact failure_envelope_ok _
    · exact success_envelope_ok _
  · intro resp s1 h
    exact Mount_envelope env r s s1 mountRequest resp h
  · intro hs
    have h := Mount_no_panic env r s mountRequest hs
    rcases hm : Mount env r s mountRequest with ⟨resp | p, s1⟩
    · exact ⟨resp, s1, rfl⟩
    · rw [hm] at h
      exact absurd rfl (h p)
  · intro resp s1 h
    unfold Unmount at h
    split at h
    · simp at h
    · next s0 _ =>
      rcases hb : unmountLocked env r s0 unmountRequest with ⟨out, s2⟩
      rw [hb] at h
      simp only [Option.some.injEq, Prod.mk.injEq] at h
      rw [h.1] at hb
      exact unmountLocked_envelope env r s0 s2 unmountRequest resp hb
  · intro hs s0 hlock
    have hf := acquireUnmountFlock_frame env Call.isRemoteOrMounter (by rfl) (by rfl) fuel s s0 hlock
    have h := unmountLocked_no_panic env r s0 unmountRequest (by rw [hf.1]; exact hs)
    rcases hb : unmountLocked env r s0 unmountRequest with ⟨resp | p, s2⟩
    · exact ⟨resp, releaseUnmountFlock s2, by simp only [Unmount, hlock, hb]⟩
    · rw [hb] at h
      exact absurd rfl (h p)

/-! ## Further properties of the registry, the resolver and the protocols -/

/-- For a backend that is not cached, getMounterForBackend returns the
error "Mounter not found for backend: " followed by the backend, no instance
and the unchanged state when the backend is not a known kind; when it is a
known kind and the registry map is initialised, it returns an instance with a
nil error and caches it. -/
theorem getMounterForBackend_miss (env : Env) (r : Resources) (s : State) (backend : String)
    (hmiss : lookupMounter s backend = none) :
    (¬ r.isKnownBackend backend →
      ∃ err, getMounterForBackend env r s backend = (.ret (none, some err), s) ∧
        err.text = "Mounter not found for backend: " ++ backend) ∧
    (r.isKnownBackend backend → s.mounterPerBackend ≠ none →
      ∃ inst s1, getMounterForBackend env r s backend = (.ret (some inst, none), s1) ∧
        lookupMounter s1 backend = some inst) := by
  rcases getMounterForBackend_spec env r s backend with
    ⟨inst, s1, hrun, _, hl, _, _, _, _, hk⟩ | ⟨err, hrun, _, hunk, htext⟩ |
    ⟨s1, hrun, hnil, hknown, _⟩
  · exact ⟨fun h => absurd (hk hmiss).1 h, fun _ _ => ⟨inst, s1, hrun, hl⟩⟩
  · exact ⟨fun _ => ⟨err, hrun, htext⟩, fun h _ => absurd h hunk⟩
  · exact ⟨fun h => absurd hknown h, fun _ h => absurd hnil h⟩

/-- The unknown backend "ceph" on a fresh controller. -/
theorem getMounterForBackend_miss_witness :
    lookupMounter freshController "ceph" = none ∧
    ¬ ubiquityResources.isKnownBackend "ceph" ∧
    ∃ err, getMounterForBackend quietEnv ubiquityResources freshController "ceph"
        = (.ret (none, some err), freshController) ∧
      err.text = "Mounter not found for backend: " ++ "ceph" :=
  ⟨by rfl, by simp [Resources.isKnownBackend, ubiquityResources],
    (getMounterForBackend_miss quietEnv ubiquityResources freshController "ceph" (by rfl)).1
      (by simp [Resources.isKnownBackend, ubiquityResources])⟩

/-- In doUnmountScbe, once the mounter is obtained, a failure of
GetVolumeConfig, of the mounter's Unmount or of the symlink removal makes the
protocol return an error, and the failed call is the last one made: the symlink
is not removed when the mounter's Unmount failed. A failure to obtain the
mounter is returned as an error before any further call. -/
theorem doUnmountScbe_stops_at_failure (env : Env) (r : Resources) (s s2 : State)
    (req : FlexVolumeUnmountRequest) (real : String) (res : Option Mounter × Option GoError)
    (hget : getMounterForBackend env r (s.log (.clientGetVolume (pathBase req.MountPath)))
        (env.clientGetVolume s.calls (pathBase req.MountPath)).1.Backend = (.ret res, s2)) :
    (∀ err, res.2 = some err →
      doUnmountScbe env r s req real
        = (.ret (some (Errorf env ("Error determining mounter for volume: " ++ err.text))),
            s2)) ∧
    (∀ inst err, res = (some inst, none) →
      env.clientGetVolumeConfig s2.calls (pathBase req.MountPath) = .error err →
      doUnmountScbe env r s req real
        = (.ret (some (Errorf env ("Error unmount for volume: " ++ err.text))),
            s2.log (.clientGetVolumeConfig (pathBase req.MountPath)))) ∧
    (∀ inst cfg err, res = (some inst, none) →
      env.clientGetVolumeConfig s2.calls (pathBase req.MountPath) = .ok cfg →
      env.mounterUnmount (s2.log (.clientGetVolumeConfig (pathBase req.MountPath))).calls
        inst cfg = some err →
      doUnmountScbe env r s req real
        = (.ret (some err),
            (s2.log (.clientGetVolumeConfig (pathBase req.MountPath))).log
              (.mounterUnmount inst cfg))) ∧
    (∀ inst cfg err, res = (some inst, none) →
      env.clientGetVolumeConfig s2.calls (pathBase req.MountPath) = .ok cfg →
      env.mounterUnmount (s2.log (.clientGetVolumeConfig (pathBase req.MountPath))).calls
        inst cfg = none →
      env.execRemove ((s2.log (.clientGetVolumeConfig (pathBase req.MountPath))).log
        (.mounterUnmount inst cfg)).calls req.MountPath = some err →
      doUnmountScbe env r s req real
        = (.ret (some (Errorf env
              ("fail to remove slink " ++ req.MountPath ++ ". Error " ++ err.goSyntax))),
            ((s2.log (.clientGetVolumeConfig (pathBase req.MountPath))).log
              (.mounterUnmount inst cfg)).log (.execRemove req.MountPath))) := by
  obtain ⟨m, e⟩ := res
  refine ⟨?_, ?_, ?_, ?_⟩
  · intro err herr
    simp only at herr
    subst herr
    simp only [doUnmountScbe, hget, ErrorRet]
  · intro inst err hres hcfg
    simp only [Prod.mk.injEq] at hres
    obtain ⟨rfl, rfl⟩ := hres
    simp only [doUnmountScbe, hget, hcfg, ErrorRet]
  · intro inst cfg err hres hcfg hu
    simp only [Prod.mk.injEq] at hres
    obtain ⟨rfl, rfl⟩ := hres
    simp only [doUnmountScbe, hget, hcfg, hu, ErrorRet]
  · intro inst cfg err hres hcfg hu hr
    simp only [Prod.mk.injEq] at hres
    obtain ⟨rfl, rfl⟩ := hres
    simp only [doUnmountScbe, hget, hcfg, hu, hr, ErrorRet]

/-- At a concrete request the mounter's Unmount fails and the symlink is
left in place. -/
theorem doUnmountScbe_stops_at_failure_witness :
    doUnmountScbe { quietEnv with mounterUnmount := fun _ _ _ => some (mkError "device busy") }
        ubiquityResources freshController pvcUnmount "/ubiquity/60050"
      = (.ret (some (mkError "device busy")),
          { mounterPerBackend := some [("scbe", { kind := .scbe, id := 0 })]
            mountersBuilt := 1
            calls := [.clientGetVolume "pvc-1", .clientGetVolumeConfig "pvc-1",
              .mounterUnmount { kind := .scbe, id := 0 } [("attach-to", .str "node-b")]] }) :=
  (doUnmountScbe_stops_at_failure
    { quietEnv with mounterUnmount := fun _ _ _ => some (mkError "device busy") }
    ubiquityResources freshController
    { mounterPerBackend := some [("scbe", { kind := .scbe, id := 0 })]
      mountersBuilt := 1
      calls := [.clientGetVolume "pvc-1"] }
    pvcUnmount "/ubiquity/60050" (some { kind := .scbe, id := 0 }, none) (by rfl)).2.2.1
    { kind := .scbe, id := 0 } [("attach-to", .str "node-b")] (mkError "device busy")
    rfl (by rfl) (by rfl)

/-- On a controller whose backend registry is initialised, as NewController
builds it, Mount returns a response envelope for every request and every
behaviour of the collaborators; it does not panic. -/
theorem mount_returns_envelope (env : Env) (r : Resources) (s : State)
    (req : FlexVolumeMountRequest) (hs : s.mounterPerBackend ≠ none) :
    ∃ resp s1, Mount env r s req = (.ret resp, s1) := by
  have h := Mount_no_panic env r s req hs
  rcases hm : Mount env r s req with ⟨resp | p, s1⟩
  · exact ⟨resp, s1, rfl⟩
  · rw [hm] at h
    exact absurd rfl (h p)

/-- Mount on the controller NewController returns. -/
theorem mount_returns_envelope_witness :
    NewController none none = .ret (some freshController, none) ∧
    freshController.mounterPerBackend ≠ none ∧
    ∃ resp s1, Mount quietEnv ubiquityResources freshController pvcMount = (.ret resp, s1) :=
  ⟨by rfl, by decide,
    mount_returns_envelope quietEnv ubiquityResources freshController pvcMount (by decide)⟩

/-- The step of doAfterMount that runs /bin/ln returns a nil error whatever
the command does, so doAfterMount reports no symlink failure. -/
theorem createSymlink_returns_nil (env : Env) (s : State) (mountedPath lnPath : String) :
    (createSymlink env s mountedPath lnPath).1 = none ∧
    (createSymlink env s mountedPath lnPath).2 = s.log (.ln mountedPath lnPath) := by
  unfold createSymlink
  split <;> exact ⟨rfl, rfl⟩

/-- The resolver getHostAttached returns the error of GetVolumeConfig when the fetch
fails; when the config is fetched and its attached-host attribute is a string
it returns that string with a nil error, and when the attribute is missing or
not a string it returns the empty host with a nil error. -/
theorem getHostAttached_cases (env : Env) (r : Resources) (s : State) (volName : String) :
    (∀ err, env.clientGetVolumeConfig s.calls volName = .error err →
      (getHostAttached env r s volName).1 = ("", some err)) ∧
    (∀ cfg h, env.clientGetVolumeConfig s.calls volName = .ok cfg →
      cfg.lookup r.ScbeKeyVolAttachToHost = some (.str h) →
      (getHostAttached env r s volName).1 = (h, none)) ∧
    (∀ cfg, env.clientGetVolumeConfig s.calls volName = .ok cfg →
      (∀ h, cfg.lookup r.ScbeKeyVolAttachToHost ≠ some (.str h)) →
      (getHostAttached env r s volName).1 = ("", none)) := by
  refine ⟨?_, ?_, ?_⟩
  · intro err h
    simp only [getHostAttached, h, ErrorRet]
  · intro cfg h hcfg hl
    simp only [getHostAttached, hcfg, hl]
  · intro cfg hcfg hl
    simp only [getHostAttached, hcfg, ErrorRet]

/-! ## Volume lookup by mountpoint -/

/-- C15: getVolumeForMountpoint returns, with a nil error, the first volume of
the list whose recorded mountpoint equals the given mount path when there is
one (every volume before it has another mountpoint), and it returns the
"Volume not found" error exactly when no volume of the list has that
mountpoint. -/
theorem getVolumeForMountpoint_first_match (env : Env) (m : String) (volumes : List Volume) :
    ((∃ v ∈ volumes, v.Mountpoint = m) →
      ∃ v pre post, getVolumeForMountpoint env m volumes = (v, none) ∧
        volumes = pre ++ v :: post ∧ v.Mountpoint = m ∧ ∀ u ∈ pre, u.Mountpoint ≠ m) ∧
    ((getVolumeForMountpoint env m volumes).2 ≠ none ↔ ∀ v ∈ volumes, v.Mountpoint ≠ m) ∧
    ((∀ v ∈ volumes, v.Mountpoint ≠ m) →
      getVolumeForMountpoint env m volumes
        = (Volume.zero, some (Errorf env "Volume not found"))) := by
  induction volumes with
  | nil =>
    refine ⟨?_, ?_, ?_⟩
    · rintro ⟨v, hv, _⟩
      cases hv
    · simp [getVolumeForMountpoint]
    · intro _
      rfl
  | cons w rest ih =>
    obtain ⟨ih1, ih2, ih3⟩ := ih
    by_cases hw : w.Mountpoint = m
    · refine ⟨?_, ?_, ?_⟩
      · intro _
        exact ⟨w, [], rest, by simp [getVolumeForMountpoint, hw], rfl, hw,
          fun u hu => by cases hu⟩
      · simp [getVolumeForMountpoint, hw]
      · intro h
        exact absurd hw (h w (List.mem_cons_self _ _))
    · have hrun : getVolumeForMountpoint env m (w :: rest)
          = getVolumeForMountpoint env m rest := by
        simp [getVolumeForMountpoint, hw]
      refine ⟨?_, ?_, ?_⟩
      · rintro ⟨v, hv, hvm⟩
        have hin : v ∈ rest := by
          rcases List.mem_cons.mp hv with h | h
          · subst h
            exact absurd hvm hw
          · exact h
        obtain ⟨v1, pre, post, h1, h2, h3, h4⟩ := ih1 ⟨v, hin, hvm⟩
        refine ⟨v1, w :: pre, post, by rw [hrun, h1], by rw [h2]; rfl, h3, ?_⟩
        intro u hu
        rcases List.mem_cons.mp hu with h | h
        · subst h
          exact hw
        · exact h4 u h
      · rw [hrun, ih2]
        constructor
        · intro h v hv
          rcases List.mem_cons.mp hv with h1 | h1
          · subst h1
            exact hw
          · exact h v h1
        · intro h v hv
          exact h v (List.mem_cons_of_mem _ hv)
      · intro h
        rw [hrun]
        exact ih3 (fun v hv => h v (List.mem_cons_of_mem _ hv))

/-! ## The post-mount protocol -/

/-- C13: no directory exists at the mount path, so os.Remove reports "does not
exist"; doAfterMount of the current protocol variant returns the error "Failed
removing existing volume directory ..." without running the link operation, and
Mount answers Failure. -/
theorem doAfterMount_fails_when_directory_missing :
    pvcMount.Version ≠ ubiquityResources.KubernetesVersion_1_5 ∧
    removeNotExistEnv.osRemove [] pvcMount.MountPath = some removeNotExistError ∧
    removeNotExistError.isNotExist = true ∧
    doAfterMount removeNotExistEnv ubiquityResources freshController pvcMount "/ubiquity/60050"
      = (some (Errorf removeNotExistEnv
            ("Failed removing existing volume directory " ++ removeNotExistError.goSyntax)),
          { freshController with calls := [.osRemove pvcMount.MountPath] }) ∧
    (Mount removeNotExistEnv ubiquityResources freshController pvcMount).1
      = .ret { Status := "Failure",
               Message := "Failed removing existing volume directory "
                 ++ removeNotExistError.goSyntax } := by
  refine ⟨by decide, rfl, rfl, ?_, ?_⟩ <;> rfl

/-- In the current protocol variant every error of os.Remove that is not an
"already exists" error, the "does not exist" error included, makes doAfterMount
return an error before the link operation. -/
theorem doAfterMount_remove_error (env : Env) (r : Resources) (s : State)
    (req : FlexVolumeMountRequest) (mountedPath : String) (err : GoError)
    (hver : req.Version ≠ r.KubernetesVersion_1_5)
    (hrm : env.osRemove s.calls req.MountPath = some err) (hex : err.isExist = false) :
    doAfterMount env r s req mountedPath
      = (some (Errorf env ("Failed removing existing volume directory " ++ err.goSyntax)),
          s.log (.osRemove req.MountPath)) := by
  simp [doAfterMount, hver, hrm, hex, ErrorRet]

theorem dropWhile_not_slash (b rest : List Char) (hb : '/' ∉ b) :
    (b ++ '/' :: rest).dropWhile (fun c => c != '/') = '/' :: rest := by
  induction b with
  | nil => simp [List.dropWhile]
  | cons c b ih =>
    have hc : c ≠ '/' := fun h => hb (by simp [h])
    have hb1 : '/' ∉ b := fun h => hb (List.mem_cons_of_mem _ h)
    have hne : (c != '/') = true := by simpa using hc
    simp only [List.cons_append, List.dropWhile, hne]
    exact ih hb1

theorem dropWhile_not_slash_all (b : List Char) (hb : '/' ∉ b) :
    b.dropWhile (fun c => c != '/') = [] := by
  induction b with
  | nil => rfl
  | cons c b ih =>
    have hc : c ≠ '/' := fun h => hb (by simp [h])
    have hb1 : '/' ∉ b := fun h => hb (List.mem_cons_of_mem _ h)
    have hne : (c != '/') = true := by simpa using hc
    simp only [List.cons_append, List.dropWhile, hne]
    exact ih hb1

/-- The directory part `path.Split` returns: the path up to and including its
last slash, and nothing for a path without a slash. -/
theorem pathSplit_dir (d b : List Char) (hb : '/' ∉ b) :
    (pathSplit (String.mk (d ++ '/' :: b))).1 = String.mk (d ++ ['/']) ∧
    (pathSplit (String.mk b)).1 = "" := by
  constructor
  · have h : (d ++ '/' :: b).reverse = b.reverse ++ '/' :: d.reverse := by simp
    simp only [pathSplit, h]
    rw [dropWhile_not_slash b.reverse d.reverse (by simpa using hb)]
    simp
  · simp only [pathSplit]
    rw [dropWhile_not_slash_all b.reverse (by simpa using hb)]
    rfl

/-- C14, refuted as stated: for a mount path that ends in a separator and a
real mount target outside the block-mount namespace, the link location passed
to /bin/ln is the mount path itself, not the parent directory of the mount
path. -/
theorem link_location_of_trailing_separator :
    trailingSlashMount.Version ≠ ubiquityResources.KubernetesVersion_1_5 ∧
    HasPrefix "/gpfs/fs1/pvc-1" (ubiquityResources.PathToMountUbiquityBlockDevices "") = false ∧
    (doAfterMount quietEnv ubiquityResources freshController trailingSlashMount
        "/gpfs/fs1/pvc-1").2.calls
      = [.osRemove "/var/lib/kubelet/pods/x/volumes/y/pvc-1/",
         .ln "/gpfs/fs1/pvc-1" "/var/lib/kubelet/pods/x/volumes/y/pvc-1/"] ∧
    trailingSlashMount.MountPath = "/var/lib/kubelet/pods/x/volumes/y/pvc-1/" ∧
    pathBase trailingSlashMount.MountPath = "pvc-1" ∧
    (pathSplit trailingSlashMount.MountPath).1 ≠ "/var/lib/kubelet/pods/x/volumes/y/" ∧
    (pathSplit trailingSlashMount.MountPath).1 ≠ "/var/lib/kubelet/pods/x/volumes/y" := by
  refine ⟨by decide, rfl, rfl, rfl, rfl, by decide, by decide⟩

/-- C14, amended: in the post-mount protocol of the current protocol variant,
when the removal of the directory does not stop the protocol, the link
operation is run with link location mountPath if the real mount target has the
block-mount namespace prefix, and otherwise with mountPath up to and including
its last separator: the parent directory followed by the separator for a
mountPath that does not end in a separator, mountPath itself for one that does,
and the empty string for a mountPath without a separator. -/
theorem doAfterMount_link_location (env : Env) (r : Resources) (s : State)
    (req : FlexVolumeMountRequest) (mountedPath : String)
    (hver : req.Version ≠ r.KubernetesVersion_1_5)
    (hrm : ∀ err, env.osRemove s.calls req.MountPath = some err → err.isExist = true) :
    (HasPrefix mountedPath (r.PathToMountUbiquityBlockDevices "") = true →
      (doAfterMount env r s req mountedPath).2.calls
        = s.calls ++ [.osRemove req.MountPath, .ln mountedPath req.MountPath]) ∧
    (HasPrefix mountedPath (r.PathToMountUbiquityBlockDevices "") = false →
      (doAfterMount env r s req mountedPath).2.calls
        = s.calls ++ [.osRemove req.MountPath, .ln mountedPath (pathSplit req.MountPath).1]) ∧
    (∀ d b : List Char, req.MountPath = String.mk (d ++ '/' :: b) → '/' ∉ b →
      (pathSplit req.MountPath).1 = String.mk (d ++ ['/'])) ∧
    ('/' ∉ req.MountPath.data → (pathSplit req.MountPath).1 = "") := by
  have hrun : ∀ lnPath : String,
      (if HasPrefix mountedPath (r.PathToMountUbiquityBlockDevices "") = true
        then req.MountPath else (pathSplit req.MountPath).1) = lnPath →
      (doAfterMount env r s req mountedPath).2.calls
        = s.calls ++ [.osRemove req.MountPath, .ln mountedPath lnPath] := by
    intro lnPath hln
    cases hr : env.osRemove s.calls req.MountPath with
    | none =>
      simp only [doAfterMount, hver, if_false, hr, hln]
      rw [(createSymlink_returns_nil env _ mountedPath lnPath).2]
      simp [State.log]
    | some err =>
      have hex := hrm err hr
      simp only [doAfterMount, hver, if_false, hr, hln, hex, Bool.not_true, Bool.false_eq_true]
      rw [(createSymlink_returns_nil env _ mountedPath lnPath).2]
      simp [State.log]
  refine ⟨?_, ?_, ?_, ?_⟩
  · intro hp
    exact hrun _ (by simp [hp])
  · intro hp
    exact hrun _ (by simp [hp])
  · intro d b hpath hb
    rw [hpath]
    exact (pathSplit_dir d b hb).1
  · intro hno
    have h := (pathSplit_dir [] req.MountPath.data hno).2
    simpa using h

/-- C14 amended, at a concrete request: a filesystem-backed mount target and a
mount path that does not end in a separator; the link is created in the parent
directory. -/
theorem doAfterMount_link_location_witness :
    pvcMount.Version ≠ ubiquityResources.KubernetesVersion_1_5 ∧
    quietEnv.osRemove freshController.calls pvcMount.MountPath = none ∧
    HasPrefix "/gpfs/fs1/pvc-1" (ubiquityResources.PathToMountUbiquityBlockDevices "") = false ∧
    (pathSplit pvcMount.MountPath).1 = "/var/lib/kubelet/pods/x/volumes/y/" ∧
    (doAfterMount quietEnv ubiquityResources freshController pvcMount "/gpfs/fs1/pvc-1").2.calls
      = freshController.calls ++ [.osRemove pvcMount.MountPath,
          .ln "/gpfs/fs1/pvc-1" (pathSplit pvcMount.MountPath).1] :=
  ⟨by decide, rfl, rfl, rfl,
    (doAfterMount_link_location quietEnv ubiquityResources freshController pvcMount
      "/gpfs/fs1/pvc-1" (by decide) (fun err h => by cases h)).2.1 rfl⟩

/-! ## Mount and the device identifier -/

theorem getMounterForBackend_calls (env : Env) (r : Resources) (s : State) (backend : String) :
    (getMounterForBackend env r s backend).2.calls = s.calls := by
  rcases getMounterForBackend_spec env r s backend with
    ⟨i, s1, hrun, _, _, _, hc, _⟩ | ⟨err, hrun, _⟩ | ⟨s1, hrun, _, _, _, hc, _⟩
  · rw [hrun]; exact hc
  · rw [hrun]
  · rw [hrun]; exact hc

theorem doAfterMount_no_mounter_call (env : Env) (r : Resources) (s : State)
    (req : FlexVolumeMountRequest) (mountedPath : String) :
    (doAfterMount env r s req mountedPath).2.calls.filter Call.isMounterMount
      = s.calls.filter Call.isMounterMount := by
  have hln : ∀ (t : State) (l : String),
      (createSymlink env t mountedPath l).2.calls.filter Call.isMounterMount
        = t.calls.filter Call.isMounterMount := by
    intro t l
    rw [(createSymlink_returns_nil env t mountedPath l).2]
    simp [State.log, Call.isMounterMount]
  unfold doAfterMount
  split
  · dsimp only
    split
    · rw [hln]; simp [State.log, Call.isMounterMount]
    · split
      · split
        · rw [hln]; simp [State.log, Call.isMounterMount]
        · split
          · simp [State.log, Call.isMounterMount]
          · rw [hln]; simp [State.log, Call.isMounterMount]
      · rw [hln]; simp [State.log, Call.isMounterMount]
  · dsimp only
    split
    · rw [hln]; simp [State.log, Call.isMounterMount]
    · split
      · simp [State.log, Call.isMounterMount]
      · rw [hln]; simp [State.log, Call.isMounterMount]

/-- C12: on a controller built by NewControllerWithClient, a Mount request
without the Wwn option for a volume of a known backend kind panics in the
backend registry, before the option is looked at; it returns no Failure
envelope. -/
theorem mount_without_wwn_panics_on_nil_registry :
    NewControllerWithClient none = .ret testController ∧
    noWwnMount.Opts.lookup "Wwn" = none ∧
    (Mount quietEnv ubiquityResources testController noWwnMount).1
      = .panic "assignment to entry in nil map" ∧
    (Mount quietEnv ubiquityResources testController noWwnMount).2.calls
      = [.clientGetVolumeConfig "pvc-1", .clientGetVolume "pvc-1"] := by
  refine ⟨?_, ?_, ?_, ?_⟩ <;> rfl

/-- Without the Wwn option Mount never calls the executor's Mount and every
envelope it returns has status Failure; it returns one whenever the backend
registry is initialised. -/
theorem mount_without_wwn (env : Env) (r : Resources) (s : State)
    (req : FlexVolumeMountRequest) (hw : req.Opts.lookup "Wwn" = none) :
    (∀ resp s1, Mount env r s req = (.ret resp, s1) → resp.Status = "Failure") ∧
    (Mount env r s req).2.calls.filter Call.isMounterMount
      = s.calls.filter Call.isMounterMount ∧
    (s.mounterPerBackend ≠ none →
      ∃ resp s1, Mount env r s req = (.ret resp, s1) ∧ resp.Status = "Failure") := by
  have hdo : (∀ p, (doMount env r s req).1 ≠ .ret (p, none)) ∧
      (doMount env r s req).2.calls.filter Call.isMounterMount
        = s.calls.filter Call.isMounterMount := by
    cases hcfg : env.clientGetVolumeConfig s.calls req.MountDevice with
    | error err =>
      simp only [doMount, hcfg, ErrorRet]
      exact ⟨fun p h => (by cases h), by simp [State.log, Call.isMounterMount]⟩
    | ok cfg =>
      have hc := getMounterForBackend_calls env r
        ((s.log (.clientGetVolumeConfig req.MountDevice)).log (.clientGetVolume req.MountDevice))
        (env.clientGetVolume (s.log (.clientGetVolumeConfig req.MountDevice)).calls
          req.MountDevice).1.Backend
      rcases hg : getMounterForBackend env r
        ((s.log (.clientGetVolumeConfig req.MountDevice)).log (.clientGetVolume req.MountDevice))
        (env.clientGetVolume (s.log (.clientGetVolumeConfig req.MountDevice)).calls
          req.MountDevice).1.Backend with ⟨⟨m, e⟩ | p, s3⟩
      · rw [hg] at hc
        have hf : s3.calls.filter Call.isMounterMount = s.calls.filter Call.isMounterMount := by
          rw [hc]
          simp [State.log, Call.isMounterMount]
        cases e with
        | some err =>
          simp only [doMount, hcfg, hg, ErrorRet]
          exact ⟨fun p h => (by cases h), hf⟩
        | none =>
          cases m with
          | none =>
            simp only [doMount, hcfg, hg]
            exact ⟨fun p h => (by cases h), hf⟩
          | some inst =>
            simp only [doMount, hcfg, hg, hw, ErrorRet]
            exact ⟨fun p h => (by cases h), hf⟩
      · rw [hg] at hc
        simp only [doMount, hcfg, hg]
        refine ⟨fun p h => (by cases h), ?_⟩
        rw [hc]
        simp [State.log, Call.isMounterMount]
  have hshape : (∀ resp s1, Mount env r s req = (.ret resp, s1) → resp.Status = "Failure") ∧
      (Mount env r s req).2.calls.filter Call.isMounterMount
        = s.calls.filter Call.isMounterMount := by
    rcases hd : doMount env r s req with ⟨⟨p, e⟩ | q, s1⟩
    · cases e with
      | none => exact absurd (by rw [hd]) (hdo.1 p)
      | some err =>
        have h2 := hdo.2
        rw [hd] at h2
        simp only [Mount, hd]
        refine ⟨?_, h2⟩
        intro resp s2 h
        simp only [Prod.mk.injEq, Outcome.ret.injEq] at h
        rw [← h.1]
    · have h2 := hdo.2
      rw [hd] at h2
      simp only [Mount, hd]
      exact ⟨fun resp s2 h => (by cases h), h2⟩
  refine ⟨hshape.1, hshape.2, ?_⟩
  intro hs
  have h := Mount_no_panic env r s req hs
  rcases hm : Mount env r s req with ⟨resp | p, s1⟩
  · exact ⟨resp, s1, rfl, hshape.1 resp s1 hm⟩
  · rw [hm] at h
    exact absurd rfl (h p)

/-- With the option Wwn = w, the volume's config fetched and the executor
obtained from the registry, Mount calls the executor's Mount exactly once: the
calls of doMount are GetVolumeConfig, GetVolume and one Mount with the
block-mount template applied to w and the config as fetched, and the post-mount
protocol makes no call to an executor. -/
theorem mount_with_wwn (env : Env) (r : Resources) (s s3 : State)
    (req : FlexVolumeMountRequest) (w : String) (cfg : VolumeConfig) (inst : Mounter)
    (hw : req.Opts.lookup "Wwn" = some w)
    (hcfg : env.clientGetVolumeConfig s.calls req.MountDevice = .ok cfg)
    (hget : getMounterForBackend env r
        ((s.log (.clientGetVolumeConfig req.MountDevice)).log (.clientGetVolume req.MountDevice))
        (env.clientGetVolume (s.log (.clientGetVolumeConfig req.MountDevice)).calls
          req.MountDevice).1.Backend = (.ret (some inst, none), s3)) :
    (doMount env r s req).2.calls
      = s.calls ++ [.clientGetVolumeConfig req.MountDevice, .clientGetVolume req.MountDevice,
          .mounterMount inst (r.PathToMountUbiquityBlockDevices w) cfg] ∧
    (Mount env r s req).2.calls.filter Call.isMounterMount
      = s.calls.filter Call.isMounterMount
        ++ [.mounterMount inst (r.PathToMountUbiquityBlockDevices w) cfg] := by
  have hc := getMounterForBackend_calls env r
    ((s.log (.clientGetVolumeConfig req.MountDevice)).log (.clientGetVolume req.MountDevice))
    (env.clientGetVolume (s.log (.clientGetVolumeConfig req.MountDevice)).calls
      req.MountDevice).1.Backend
  rw [hget] at hc
  have hc3 : s3.calls = s.calls
      ++ [.clientGetVolumeConfig req.MountDevice, .clientGetVolume req.MountDevice] := by
    simpa [State.log] using hc
  have hdo : (doMount env r s req).2.calls
      = s.calls ++ [.clientGetVolumeConfig req.MountDevice, .clientGetVolume req.MountDevice,
          .mounterMount inst (r.PathToMountUbiquityBlockDevices w) cfg] := by
    cases hm : env.mounterMount s3.calls inst (r.PathToMountUbiquityBlockDevices w) cfg with
    | error e =>
      simp only [doMount, hcfg, hget, hw, hm]
      simp [State.log, hc3]
    | ok mp =>
      simp only [doMount, hcfg, hget, hw, hm]
      simp [State.log, hc3]
  refine ⟨hdo, ?_⟩
  rcases hd : doMount env r s req with ⟨⟨p, e⟩ | q, s1⟩
  · rw [hd] at hdo
    cases e with
    | some err =>
      simp only [Mount, hd]
      simp only at hdo
      rw [hdo]
      simp [Call.isMounterMount]
    | none =>
      have hafter := doAfterMount_no_mounter_call env r s1 req p
      simp only at hdo
      have hcalls : (Mount env r s req).2.calls.filter Call.isMounterMount
          = s1.calls.filter Call.isMounterMount := by
        simp only [Mount, hd]
        split
        · next heq => rw [heq] at hafter; exact hafter
        · next heq => rw [heq] at hafter; exact hafter
      rw [hcalls, hdo]
      simp [Call.isMounterMount]
  · cases hm : env.mounterMount s3.calls inst (r.PathToMountUbiquityBlockDevices w) cfg with
    | error e => simp [doMount, hcfg, hget, hw, hm] at hd
    | ok mp => simp [doMount, hcfg, hget, hw, hm] at hd

/-! ## Unmount of a block-device-backed volume -/

theorem getHostAttached_state (env : Env) (r : Resources) (s : State) (volName : String) :
    (getHostAttached env r s volName).2 = s.log (.clientGetVolumeConfig volName) := by
  unfold getHostAttached
  repeat' split
  all_goals rfl

/-- The block-device unmount when the registry yields an executor. Unmount
obtains the lock, the mount path resolves through its symlink to a path under
the block-mount namespace, and every step succeeds (the registry yields the
executor of the volume's backend, the collaborators return no error). Then, after the lock and the symlink resolution, the calls made are,
in this order: GetVolume and GetVolumeConfig for the volume named by the final
segment of mountPath, the executor's Unmount with that config, the removal of
the symlink at mountPath, the resolver's GetVolumeConfig, the remote Detach for
that volume name with the host h the resolver returned (whatever h is: no
IsAttached check is made), GetVolume and GetVolumeConfig of the after-detach
hook, the executor's ActionAfterDetach, and the unlock; the envelope has status
Success. -/
theorem unmount_block_device_flow (env : Env) (r : Resources) (s s0 s2 s6 s8 : State)
    (req : FlexVolumeUnmountRequest) (fuel : Nat) (real h : String) (inst inst2 : Mounter)
    (cfg cfg2 : VolumeConfig)
    (hlock : acquireUnmountFlock env s fuel = some s0)
    (heval : env.execEvalSymlinks s0.calls req.MountPath = .ok real)
    (hpre : HasPrefix real (r.PathToMountUbiquityBlockDevices "") = true)
    (hget1 : getMounterForBackend env r
        ((s0.log (.execEvalSymlinks req.MountPath)).log (.clientGetVolume (pathBase req.MountPath)))
        (env.clientGetVolume (s0.log (.execEvalSymlinks req.MountPath)).calls
          (pathBase req.MountPath)).1.Backend
      = (.ret (some inst, none), s2))
    (hcfg1 : env.clientGetVolumeConfig s2.calls (pathBase req.MountPath) = .ok cfg)
    (hun : env.mounterUnmount (s2.log (.clientGetVolumeConfig (pathBase req.MountPath))).calls
        inst cfg = none)
    (hrm : env.execRemove ((s2.log (.clientGetVolumeConfig (pathBase req.MountPath))).log
        (.mounterUnmount inst cfg)).calls req.MountPath = none)
    (hhost : getHostAttached env r
        (((s2.log (.clientGetVolumeConfig (pathBase req.MountPath))).log
          (.mounterUnmount inst cfg)).log (.execRemove req.MountPath))
        (pathBase req.MountPath) = ((h, none), s6))
    (hdet : env.clientDetach s6.calls (pathBase req.MountPath) h = none)
    (hget2 : getMounterForBackend env r
        ((s6.log (.clientDetach (pathBase req.MountPath) h)).log
          (.clientGetVolume (pathBase req.MountPath)))
        (env.clientGetVolume (s6.log (.clientDetach (pathBase req.MountPath) h)).calls
          (pathBase req.MountPath)).1.Backend
      = (.ret (some inst2, none), s8))
    (hcfg2 : env.clientGetVolumeConfig s8.calls (pathBase req.MountPath) = .ok cfg2)
    (hact : env.mounterActionAfterDetach
        (s8.log (.clientGetVolumeConfig (pathBase req.MountPath))).calls inst2 cfg2 = none) :
    ∃ s9, Unmount env r s req fuel = some (.ret { Status := "Success" }, s9) ∧
      s9.unmountFlockHeld = false ∧
      s9.calls = s0.calls ++
        [.execEvalSymlinks req.MountPath,
         .clientGetVolume (pathBase req.MountPath),
         .clientGetVolumeConfig (pathBase req.MountPath),
         .mounterUnmount inst cfg,
         .execRemove req.MountPath,
         .clientGetVolumeConfig (pathBase req.MountPath),
         .clientDetach (pathBase req.MountPath) h,
         .clientGetVolume (pathBase req.MountPath),
         .clientGetVolumeConfig (pathBase req.MountPath),
         .mounterActionAfterDetach inst2 cfg2,
         .unlock] := by
  have hc2 := getMounterForBackend_calls env r
    ((s0.log (.execEvalSymlinks req.MountPath)).log (.clientGetVolume (pathBase req.MountPath)))
    (env.clientGetVolume (s0.log (.execEvalSymlinks req.MountPath)).calls
      (pathBase req.MountPath)).1.Backend
  rw [hget1] at hc2
  have hs6 := getHostAttached_state env r
    (((s2.log (.clientGetVolumeConfig (pathBase req.MountPath))).log
      (.mounterUnmount inst cfg)).log (.execRemove req.MountPath)) (pathBase req.MountPath)
  rw [hhost] at hs6
  have hc8 := getMounterForBackend_calls env r
    ((s6.log (.clientDetach (pathBase req.MountPath) h)).log
      (.clientGetVolume (pathBase req.MountPath)))
    (env.clientGetVolume (s6.log (.clientDetach (pathBase req.MountPath) h)).calls
      (pathBase req.MountPath)).1.Backend
  rw [hget2] at hc8
  have hleg : doLegacyDetach env r
      (((s2.log (.clientGetVolumeConfig (pathBase req.MountPath))).log
        (.mounterUnmount inst cfg)).log (.execRemove req.MountPath)) req
      = (.ret none, (s8.log (.clientGetVolumeConfig (pathBase req.MountPath))).log
          (.mounterActionAfterDetach inst2 cfg2)) := by
    simp only [doLegacyDetach, doDetach, Bool.false_eq_true, if_false, doDetachRemote, if_true,
      hhost, hdet, doAfterDetach, hget2, hcfg2, hact]
  have hscbe : doUnmountScbe env r (s0.log (.execEvalSymlinks req.MountPath)) req real
      = (.ret none, ((s2.log (.clientGetVolumeConfig (pathBase req.MountPath))).log
          (.mounterUnmount inst cfg)).log (.execRemove req.MountPath)) := by
    simp only [doUnmountScbe, hget1, hcfg1, hun, hrm]
  refine ⟨releaseUnmountFlock ((s8.log (.clientGetVolumeConfig (pathBase req.MountPath))).log
      (.mounterActionAfterDetach inst2 cfg2)), ?_, rfl, ?_⟩
  · simp only [Unmount, hlock, unmountLocked, heval, hpre, if_true, hscbe, hleg]
  · simp only at hs6
    subst hs6
    simp only [State.log] at hc2 hc8
    simp only [releaseUnmountFlock, State.log, hc8, hc2, List.append_assoc,
      List.singleton_append, List.cons_append, List.nil_append]

/-- The scenario of the specification on a controller built by NewController:
the mount path of volume pvc-1 resolves under /ubiquity/ and every collaborator
succeeds; the volume is attached to node-b. -/
theorem unmount_block_device_flow_witness :
    ∃ s9, Unmount quietEnv ubiquityResources freshController pvcUnmount 1
        = some (.ret { Status := "Success" }, s9) ∧
      s9.unmountFlockHeld = false ∧
      s9.calls = [.tryLock] ++
        [.execEvalSymlinks "/var/lib/kubelet/pods/x/volumes/y/pvc-1",
         .clientGetVolume "pvc-1",
         .clientGetVolumeConfig "pvc-1",
         .mounterUnmount { kind := .scbe, id := 0 } [("attach-to", .str "node-b")],
         .execRemove "/var/lib/kubelet/pods/x/volumes/y/pvc-1",
         .clientGetVolumeConfig "pvc-1",
         .clientDetach "pvc-1" "node-b",
         .clientGetVolume "pvc-1",
         .clientGetVolumeConfig "pvc-1",
         .mounterActionAfterDetach { kind := .scbe, id := 0 } [("attach-to", .str "node-b")],
         .unlock] :=
  unmount_block_device_flow quietEnv ubiquityResources freshController
    { freshController with unmountFlockHeld := true, calls := [.tryLock] }
    _ _ _ pvcUnmount 1 "/ubiquity/6005076" "node-b"
    { kind := .scbe, id := 0 } { kind := .scbe, id := 0 }
    [("attach-to", .str "node-b")] [("attach-to", .str "node-b")]
    rfl rfl rfl rfl rfl rfl rfl rfl rfl rfl rfl rfl

/-! ## The lock stays held until the deferred unlock -/

theorem getMounterForBackend_held (env : Env) (r : Resources) (s : State) (backend : String) :
    (getMounterForBackend env r s backend).2.unmountFlockHeld = s.unmountFlockHeld := by
  rcases getMounterForBackend_spec env r s backend with
    ⟨i, s1, hrun, _, _, _, _, hh, _⟩ | ⟨err, hrun, _⟩ | ⟨s1, hrun, _, _, _, _, hh⟩
  · rw [hrun]; exact hh
  · rw [hrun]
  · rw [hrun]; exact hh

theorem doDetachRemote_held (env : Env) (r : Resources) (s : State)
    (req : FlexVolumeDetachRequest) :
    (doDetachRemote env r s req).2.unmountFlockHeld = s.unmountFlockHeld := by
  have h : (getHostAttached env r s req.Name).2.unmountFlockHeld = s.unmountFlockHeld := by
    rw [getHostAttached_state]
    rfl
  unfold doDetachRemote
  by_cases hh : req.Host = ""
  · simp only [hh, if_true]
    split
    · next heq => rw [heq] at h; exact h
    · next heq =>
      rw [heq] at h
      split <;> exact h
  · simp only [hh, if_false]
    split <;> rfl

theorem doAfterDetach_held (env : Env) (r : Resources) (s : State)
    (req : FlexVolumeDetachRequest) :
    (doAfterDetach env r s req).2.unmountFlockHeld = s.unmountFlockHeld := by
  have hh := getMounterForBackend_held env r (s.log (.clientGetVolume req.Name))
    (env.clientGetVolume s.calls req.Name).1.Backend
  rcases hg : getMounterForBackend env r (s.log (.clientGetVolume req.Name))
    (env.clientGetVolume s.calls req.Name).1.Backend with ⟨⟨m, e⟩ | p, s2⟩
  · rw [hg] at hh
    have hh2 : s2.unmountFlockHeld = s.unmountFlockHeld := hh
    cases e with
    | some err => simp only [doAfterDetach, hg]; exact hh2
    | none =>
      cases m with
      | none => simp only [doAfterDetach, hg]; exact hh2
      | some inst =>
        simp only [doAfterDetach, hg]
        split
        · exact hh2
        · split <;> exact hh2
  · rw [hg] at hh
    simp only [doAfterDetach, hg]
    exact hh

theorem doLegacyDetach_held (env : Env) (r : Resources) (s : State)
    (req : FlexVolumeUnmountRequest) :
    (doLegacyDetach env r s req).2.unmountFlockHeld = s.unmountFlockHeld := by
  have h1 := doDetachRemote_held env r s { Name := pathBase req.MountPath }
  unfold doLegacyDetach
  simp only [doDetach, Bool.false_eq_true, if_false]
  split
  · next heq => rw [heq] at h1; exact h1
  · next s1 heq =>
    rw [heq] at h1
    have h2 := doAfterDetach_held env r s1 { Name := pathBase req.MountPath }
    split
    · next heq2 => rw [heq2] at h2; exact h2.trans h1
    · next heq2 => rw [heq2] at h2; exact h2.trans h1
    · next heq2 => rw [heq2] at h2; exact h2.trans h1

theorem doUnmountScbe_held (env : Env) (r : Resources) (s : State)
    (req : FlexVolumeUnmountRequest) (real : String) :
    (doUnmountScbe env r s req real).2.unmountFlockHeld = s.unmountFlockHeld := by
  have hh := getMounterForBackend_held env r (s.log (.clientGetVolume (pathBase req.MountPath)))
    (env.clientGetVolume s.calls (pathBase req.MountPath)).1.Backend
  rcases hg : getMounterForBackend env r (s.log (.clientGetVolume (pathBase req.MountPath)))
    (env.clientGetVolume s.calls (pathBase req.MountPath)).1.Backend with ⟨⟨m, e⟩ | p, s2⟩
  · rw [hg] at hh
    have hh2 : s2.unmountFlockHeld = s.unmountFlockHeld := hh
    cases e with
    | some err => simp only [doUnmountScbe, hg]; exact hh2
    | none =>
      cases m with
      | none => simp only [doUnmountScbe, hg]; exact hh2
      | some inst =>
        simp only [doUnmountScbe, hg]
        split
        · exact hh2
        · split
          · exact hh2
          · split <;> exact hh2
  · rw [hg] at hh
    simp only [doUnmountScbe, hg]
    exact hh

theorem doUnmountSsc_held (env : Env) (s : State) (req : FlexVolumeUnmountRequest)
    (real : String) :
    (doUnmountSsc env s req real).2.unmountFlockHeld = s.unmountFlockHeld := by
  unfold doUnmountSsc
  dsimp only
  split
  · rfl
  · split
    · rfl
    · split
      · rfl
      · split <;> rfl

theorem unmountLocked_held (env : Env) (r : Resources) (s : State)
    (req : FlexVolumeUnmountRequest) :
    (unmountLocked env r s req).2.unmountFlockHeld = s.unmountFlockHeld := by
  cases heval : env.execEvalSymlinks s.calls req.MountPath with
  | error err => simp only [unmountLocked, heval]; rfl
  | ok real =>
    have key : ∀ (u : Outcome (Option GoError) × State),
        u.2.unmountFlockHeld = s.unmountFlockHeld →
        (match u with
          | (.panic p, s2) => ((.panic p : Outcome FlexVolumeResponse), s2)
          | (.ret (some err), s2) => (.ret { Status := "Failure", Message := err.text }, s2)
          | (.ret none, s2) =>
            match doLegacyDetach env r s2 req with
            | (.panic p, s3) => (.panic p, s3)
            | (.ret (some err), s3) => (.ret { Status := "Failure", Message := err.text }, s3)
            | (.ret none, s3) => (.ret { Status := "Success" }, s3)).2.unmountFlockHeld
          = s.unmountFlockHeld := by
      rintro ⟨⟨e⟩ | p, s2⟩ hu
      · cases e with
        | some err => exact hu
        | none =>
          have h3 := doLegacyDetach_held env r s2 req
          simp only
          split
          · next heq => rw [heq] at h3; exact h3.trans hu
          · next heq => rw [heq] at h3; exact h3.trans hu
          · next heq => rw [heq] at h3; exact h3.trans hu
      · exact hu
    by_cases hpre : HasPrefix real (r.PathToMountUbiquityBlockDevices "") = true
    · simp only [unmountLocked, heval, hpre, if_true]
      exact key _ (doUnmountScbe_held env r (s.log (.execEvalSymlinks req.MountPath)) req real)
    · simp only [unmountLocked, heval, hpre, if_false]
      exact key _ (doUnmountSsc_held env (s.log (.execEvalSymlinks req.MountPath)) req real)

/-! ## The unmount lock -/

/-- C16: Unmount returns exactly when its lock loop obtains the lock. The lock
is then held through the whole body, and on every way out of it (the failure to
resolve the symlink, a failed backend unmount, a failed legacy detach, success,
and a panic as well) the deferred unlock runs: the unlock is the last call made
and the lock is not held in the state Unmount leaves. -/
theorem unmount_releases_lock (env : Env) (r : Resources) (s : State)
    (req : FlexVolumeUnmountRequest) (fuel : Nat) :
    (∀ out s1, Unmount env r s req fuel = some (out, s1) →
      s1.unmountFlockHeld = false ∧ s1.calls.getLast? = some .unlock ∧
      ∃ s0, acquireUnmountFlock env s fuel = some s0 ∧ s0.unmountFlockHeld = true ∧
        (unmountLocked env r s0 req).2.unmountFlockHeld = true ∧
        s1 = releaseUnmountFlock (unmountLocked env r s0 req).2) ∧
    (∀ s0, acquireUnmountFlock env s fuel = some s0 →
      ∃ out s1, Unmount env r s req fuel = some (out, s1) ∧
        s1.unmountFlockHeld = false ∧ s1.calls.getLast? = some .unlock) := by
  have key : ∀ s0, acquireUnmountFlock env s fuel = some s0 →
      Unmount env r s req fuel
        = some ((unmountLocked env r s0 req).1,
            releaseUnmountFlock (unmountLocked env r s0 req).2) := by
    intro s0 h
    simp only [Unmount, h]
  refine ⟨?_, ?_⟩
  · intro out s1 h
    cases hacq : acquireUnmountFlock env s fuel with
    | none => simp [Unmount, hacq] at h
    | some s0 =>
      rw [key s0 hacq] at h
      simp only [Option.some.injEq, Prod.mk.injEq] at h
      have hf := acquireUnmountFlock_frame env Call.isRemoteOrMounter (by rfl) (by rfl)
        fuel s s0 hacq
      refine ⟨?_, ?_, s0, rfl, hf.2.2.1, ?_, h.2.symm⟩
      · rw [← h.2]
        rfl
      · rw [← h.2]
        simp [releaseUnmountFlock, State.log]
      · rw [unmountLocked_held]
        exact hf.2.2.1
  · intro s0 hacq
    refine ⟨_, _, key s0 hacq, rfl, ?_⟩
    simp [releaseUnmountFlock, State.log]

/-! ## Unmount of a block-device-backed volume on a nil registry -/

/-- C11: on a controller built by NewControllerWithClient the mount path
resolves through its symlink under the block-mount namespace and every
collaborator call succeeds, and Unmount panics in the backend registry right
after GetVolume: the executor's Unmount is not called, the symlink is not
removed, no Detach is sent and no envelope is returned; only the deferred
unlock runs. -/
theorem unmount_block_device_panics_on_nil_registry :
    NewControllerWithClient none = .ret testController ∧
    quietEnv.execEvalSymlinks [.tryLock] pvcUnmount.MountPath = .ok "/ubiquity/6005076" ∧
    HasPrefix "/ubiquity/6005076" (ubiquityResources.PathToMountUbiquityBlockDevices "")
      = true ∧
    (quietEnv.clientGetVolume
        [.tryLock, .execEvalSymlinks pvcUnmount.MountPath] "pvc-1").1.Backend
      = ubiquityResources.SCBE ∧
    Unmount quietEnv ubiquityResources testController pvcUnmount 1
      = some (.panic "assignment to entry in nil map",
          { mounterPerBackend := none
            mountersBuilt := 1
            unmountFlockHeld := false
            calls := [.tryLock, .execEvalSymlinks "/var/lib/kubelet/pods/x/volumes/y/pvc-1",
              .clientGetVolume "pvc-1", .unlock] }) := by
  refine ⟨?_, ?_, ?_, ?_, ?_⟩ <;> rfl

end Ubiquity
